import Mathlib

/-!
Blue Castle Texture Viewer: block decoders and container readers

A shallow embedding of the texture codec of `src/src/BCTImage.cpp` and
`src/src/DDSImage.cpp`, followed by theorems about it.

Modelling conventions

* an `unsigned char` is a `Byte` (`Fin 256`); every other machine integer is a
  `Nat`, reduced modulo `2^w` where the source truncates;
* a `const unsigned char*` is a `BytePtr`: the byte found at each index from the
  pointer; `s + 8` is `BytePtr.advance s 8`;
* the pixel buffer `m_pixels` is a `Surface`: the byte held at each byte offset
  from `m_pixels`.  The block decoders only ever store into it, so each decoder
  is given as the list of stores it performs, in program order, and
  `applyStores` runs such a list on a surface;
* the row offsets `(yBase + py) * m_pitch` and `y * m_pitch` of the store loops,
  which the source computes in `int`, are taken as the exact products.  They
  are the values of the source as long as they are below `2^31`, that is on
  every surface of less than 2 GiB; from a product of `2^31` on the `int`
  multiplication of the source overflows and the definitions below say nothing
  about the code.
-/

namespace BlueCastle

/-! ## Bytes, pointers and the pixel buffer -/

/-- An `unsigned char`. -/
abbrev Byte := Fin 256

/-- A `const unsigned char*`: the byte at each index counted from the pointer. -/
abbrev BytePtr := Nat → Byte

/-- Pointer arithmetic `s + k`. -/
def BytePtr.advance (s : BytePtr) (k : Nat) : BytePtr := fun i => s (k + i)

/-- The bytes of a literal block, as a pointer to its first byte (bytes past
the last one read as zero). -/
def BytePtr.ofList (l : List Byte) : BytePtr := fun i => l.getD i 0

/-- The memory reached from `m_pixels`: byte offset to byte value. -/
abbrev Surface := Nat → Nat

/-- One store `m_pixels[off] = val`, as the pair `(off, val)`. -/
abbrev Store := Nat × Nat

/-- Run a list of stores, first to last, on a surface. -/
def applyStores (m : Surface) : List Store → Surface
  | [] => m
  | w :: ws => applyStores (fun i => if i = w.1 then w.2 else m i) ws

/-- The conversion `static_cast<unsigned char>(x)` of a non-negative value. -/
def toUChar (x : Nat) : Nat := x % 256

/-! ## Helpers shared by both decoders (the anonymous namespaces) -/

/-- The helper `lerpByte(a, b, w2of3)`: `w2of3 == 0` gives the average, any
other value the two-thirds/one-third blend. -/
def lerpByte (a b w2of3 : Nat) : Nat :=
  if w2of3 = 0 then toUChar ((a + b) >>> 1) else toUChar ((2 * a + b) / 3)

/-- The table `Tables::r5`, filled by `r5[i] = (i<<3)|(i>>2)` for `i < 32`. -/
def Tables.r5 : List Nat :=
  (List.range 32).map fun i => toUChar ((i <<< 3) ||| (i >>> 2))

/-- The table `Tables::g6`, filled by `g6[i] = (i<<2)|(i>>4)` for `i < 64`. -/
def Tables.g6 : List Nat :=
  (List.range 64).map fun i => toUChar ((i <<< 2) ||| (i >>> 4))

/-- The function `Expand565(c, r, g, b)`: the three out-parameters as the
triple `(r, g, b)`. -/
def Expand565 (c : Nat) : Nat × Nat × Nat :=
  (Tables.r5.getD ((c >>> 11) &&& 0x1F) 0,
   Tables.g6.getD ((c >>> 5) &&& 0x3F) 0,
   Tables.r5.getD (c &&& 0x1F) 0)

/-- The two endpoint words of a BC1 block: `c0 = s[0] | (s[1]<<8)` and
`c1 = s[2] | (s[3]<<8)`. -/
def endpoint0 (s : BytePtr) : Nat := (s 0).val ||| ((s 1).val <<< 8)

/-- The second endpoint word `c1 = s[2] | (s[3]<<8)`. -/
def endpoint1 (s : BytePtr) : Nat := (s 2).val ||| ((s 3).val <<< 8)

/-- The index word `idx = s[4] | (s[5]<<8) | (s[6]<<16) | (s[7]<<24)`, an
`unsigned`. -/
def indexWord (s : BytePtr) : Nat :=
  ((s 4).val ||| ((s 5).val <<< 8) ||| ((s 6).val <<< 16) ||| ((s 7).val <<< 24)) % 2 ^ 32

/-! ## The BC1 palettes -/

namespace BCTImage

/-- The palette `clr[4][4]` that `BCTImage::DecodeDXT1Block` builds. -/
def DecodeDXT1Block_clr (s : BytePtr) : List (List Nat) :=
  let c0 := endpoint0 s
  let c1 := endpoint1 s
  let (r0, g0, b0) := Expand565 c0
  let (r1, g1, b1) := Expand565 c1
  let opq : Bool := decide (c0 > c1)
  if opq then
    [[b0, g0, r0, 255],
     [b1, g1, r1, 255],
     [lerpByte b0 b1 1, lerpByte g0 g1 1, lerpByte r0 r1 1, 255],
     [lerpByte b1 b0 1, lerpByte g1 g0 1, lerpByte r1 r0 1, 255]]
  else
    [[b0, g0, r0, 255],
     [b1, g1, r1, 255],
     [lerpByte b0 b1 0, lerpByte g0 g1 0, lerpByte r0 r1 0, 255],
     [0, 0, 0, 0]]

end BCTImage

namespace DDSImage

/-- The palette `clr[4][4]` that `DDSImage::DecodeDXT1Block` builds. -/
def DecodeDXT1Block_clr (s : BytePtr) : List (List Nat) :=
  let c0 := endpoint0 s
  let c1 := endpoint1 s
  let (r0, g0, b0) := Expand565 c0
  let (r1, g1, b1) := Expand565 c1
  let opq : Bool := decide (c0 > c1)
  [[b0, g0, r0, 255],
   [b1, g1, r1, 255],
   [lerpByte b0 b1 1, lerpByte g0 g1 1, lerpByte r0 r1 1, 255],
   [lerpByte b0 b1 0, lerpByte g0 g1 0, lerpByte r0 r1 0, toUChar (if opq then 255 else 0)]]

end DDSImage

/-! ## The store loops of the block decoders -/

/-- The four stores `dst[0] = p[0]; dst[1] = p[1]; dst[2] = p[2]; dst[3] = p[3]`
of one palette entry `p`. -/
def storePixel (dst : Nat) (p : List Nat) : List Store :=
  [(dst, p.getD 0 0), (dst + 1, p.getD 1 0), (dst + 2, p.getD 2 0), (dst + 3, p.getD 3 0)]

/-- The body of the inner loop of `DecodeDXT1Block`: the texel at `dst` gets
`clr[idx & 3]` and the texel at `dst + 4` gets `clr[(idx>>2) & 3]`. -/
def dxt1Pair (clr : List (List Nat)) (dst idx : Nat) : List Store :=
  storePixel dst (clr.getD (idx &&& 3) []) ++
    storePixel (dst + 4) (clr.getD ((idx >>> 2) &&& 3) [])

/-- The inner loop `for (px = 0; px < 4; px += 2, idx >>= 4) { ...; dst += 8; }`
with `n` passes left: the stores made and the value of `idx` after it. -/
def dxt1Inner (clr : List (List Nat)) : Nat → Nat → Nat → List Store × Nat
  | 0, _, idx => ([], idx)
  | n + 1, dst, idx =>
    let r := dxt1Inner clr n (dst + 8) (idx >>> 4)
    (dxt1Pair clr dst idx ++ r.1, r.2)

/-- The outer loop `for (py = 0; py < 4; ++py)` of `DecodeDXT1Block` with `n`
rows left, where each row starts at
`dst = m_pixels + (yBase+py)*m_pitch + (xBase<<2)` (the exact value; the `int`
product of the source is this value while it is below `2^31`). -/
def dxt1Outer (clr : List (List Nat)) (pitch xBase yBase : Nat) :
    Nat → Nat → Nat → List Store
  | 0, _, _ => []
  | n + 1, py, idx =>
    let r := dxt1Inner clr 2 ((yBase + py) * pitch + (xBase <<< 2)) idx
    r.1 ++ dxt1Outer clr pitch xBase yBase n (py + 1) r.2

/-- The index loop of `DecodeDXT1Block` (the same text in both classes): the
stores made for block `(bx, by)` with palette `clr` and index word `idx`. -/
def dxt1Loop (clr : List (List Nat)) (idx pitch bx by_ : Nat) : List Store :=
  dxt1Outer clr pitch (bx <<< 2) (by_ <<< 2) 4 0 idx

/-- The closing loop of `DecodeDXT3Block` and `DecodeDXT5Block`:
`dst[px*4+3] = alpha[py*4+px]` for `py`, `px` in `0..3`, with
`dst = m_pixels + (yBase+py)*m_pitch + (xBase<<2)` (the exact value; the `int`
product of the source is this value while it is below `2^31`). -/
def storeAlpha (alpha : List Nat) (pitch bx by_ : Nat) : List Store :=
  (List.range 4).flatMap fun py =>
    (List.range 4).map fun px =>
      (((by_ <<< 2) + py) * pitch + ((bx <<< 2) <<< 2) + (px * 4 + 3),
        alpha.getD (py * 4 + px) 0)

/-- The array `alpha[16]` of `DecodeDXT3Block`: `alpha[2i] = (s[i] & 0x0F)*17`
and `alpha[2i+1] = ((s[i]>>4) & 0x0F)*17` for `i < 8`. -/
def DecodeDXT3Block_alpha (s : BytePtr) : List Nat :=
  (List.range 8).flatMap fun i =>
    [toUChar (((s i).val &&& 0x0F) * 17), toUChar ((((s i).val >>> 4) &&& 0x0F) * 17)]

/-- The array `lut[8]` of `DecodeDXT5Block` (and of the `expandChannel` of
`DDSImage::DecodeATI2Block`), from the endpoints `a0`, `a1`. -/
def DecodeDXT5Block_lut (a0 a1 : Nat) : List Nat :=
  if a0 > a1 then
    (List.range' 1 6).foldl
      (fun lut k => lut.set (1 + k) (toUChar (((7 - k) * a0 + k * a1) / 7)))
      [toUChar a0, toUChar a1, 0, 0, 0, 0, 0, 0]
  else
    (((List.range' 1 4).foldl
      (fun lut k => lut.set (1 + k) (toUChar (((5 - k) * a0 + k * a1) / 5)))
      [toUChar a0, toUChar a1, 0, 0, 0, 0, 0, 0]).set 6 0).set 7 255

/-- The 48-bit field `bits`: `bits |= (unsigned long long)q[i] << (8*i)` for
`i < 6`, starting from 0 (the value stays below `2^48`). -/
def alphaBits (q : BytePtr) : Nat :=
  (List.range 6).foldl (fun bits i => bits ||| ((q i).val <<< (8 * i))) 0

/-- The selection loop `out[i] = lut[(bits >> (3*i)) & 7]` for `i < 16`. -/
def selectAlpha (lut : List Nat) (bits : Nat) : List Nat :=
  (List.range 16).map fun i => lut.getD ((bits >>> (3 * i)) &&& 7) 0

/-- The array `alpha[16]` of `DecodeDXT5Block`, from the 16-byte block `s`. -/
def DecodeDXT5Block_alpha (s : BytePtr) : List Nat :=
  selectAlpha (DecodeDXT5Block_lut (s 0).val (s 1).val) (alphaBits (s.advance 2))

/-- The store loop of `DecodeATI2Block` (the same text in both classes): per
texel `dst[2] = 127; dst[1] = green[idx]; dst[0] = red[idx]; dst[3] = 255;
dst += 4`, each row starting at `m_pixels + (yBase+py)*m_pitch + (xBase<<2)`
(the exact value; the `int` product of the source is this value while it is
below `2^31`). -/
def ati2Loop (red green : List Nat) (pitch bx by_ : Nat) : List Store :=
  (List.range 4).flatMap fun py =>
    (List.range 4).flatMap fun px =>
      let dst := ((by_ <<< 2) + py) * pitch + ((bx <<< 2) <<< 2) + 4 * px
      let idx := py * 4 + px
      [(dst + 2, 127), (dst + 1, green.getD idx 0), (dst, red.getD idx 0), (dst + 3, 255)]

namespace BCTImage

/-- The function `BCTImage::DecodeDXT1Block(s, bx, by)` on an image with `m_pitch = pitch`:
the stores it makes into `m_pixels`. -/
def DecodeDXT1Block (pitch : Nat) (s : BytePtr) (bx by_ : Nat) : List Store :=
  dxt1Loop (DecodeDXT1Block_clr s) (indexWord s) pitch bx by_

/-- The function `BCTImage::DecodeDXT3Block(s, bx, by)`. -/
def DecodeDXT3Block (pitch : Nat) (s : BytePtr) (bx by_ : Nat) : List Store :=
  DecodeDXT1Block pitch (s.advance 8) bx by_ ++
    storeAlpha (DecodeDXT3Block_alpha s) pitch bx by_

/-- The function `BCTImage::DecodeDXT5Block(s, bx, by)`. -/
def DecodeDXT5Block (pitch : Nat) (s : BytePtr) (bx by_ : Nat) : List Store :=
  DecodeDXT1Block pitch (s.advance 8) bx by_ ++
    storeAlpha (DecodeDXT5Block_alpha s) pitch bx by_

/-- The array `lut[8]` of `BCTImage::DecodeATI1Block`:
`lut[i] = (unsigned char)((7 - i) * a0 + i * a1 / 7)` for `i = 2..5`, then
`lut[6] = 0; lut[7] = 255`. -/
def DecodeATI1Block_lut (a0 a1 : Nat) : List Nat :=
  (((List.range' 2 4).foldl
    (fun lut i => lut.set i (toUChar ((7 - i) * a0 + i * a1 / 7)))
    [toUChar a0, toUChar a1, 0, 0, 0, 0, 0, 0]).set 6 0).set 7 255

/-- The `unsigned idx` of `BCTImage::DecodeATI1Block`:
`idx |= static_cast<unsigned>(s[2 + i]) << (8 * i)` for `i < 6`.  The shift is
a 32-bit one.  For `i = 4, 5` the count is 32 and 40, not below the width of
the type, which the source leaves undefined; the shift instruction takes the
count modulo 32, and so does this definition: `s[6]` lands on bits 0..7 and
`s[7]` on bits 8..15. -/
def DecodeATI1Block_idx (s : BytePtr) : Nat :=
  (List.range 6).foldl
    (fun idx i => idx ||| (((s (2 + i)).val <<< ((8 * i) % 32)) % 2 ^ 32)) 0

/-- The inner loop of `BCTImage::DecodeATI1Block` with `n` passes left:
`dst[3] = lut[idx & 7]; dst[7] = lut[(idx >> 2) & 7]; dst += 8`, then
`idx >>= 4`. -/
def ati1Inner (lut : List Nat) : Nat → Nat → Nat → List Store × Nat
  | 0, _, idx => ([], idx)
  | n + 1, dst, idx =>
    let r := ati1Inner lut n (dst + 8) (idx >>> 4)
    ((dst + 3, lut.getD (idx &&& 7) 0) :: (dst + 7, lut.getD ((idx >>> 2) &&& 7) 0) :: r.1, r.2)

/-- The outer loop `for (py = 0; py < 4; ++py)` of `BCTImage::DecodeATI1Block`
with `n` rows left, each row starting at
`m_pixels + (yBase + py) * m_pitch + (xBase << 2)` (the exact value; the `int`
product of the source is this value while it is below `2^31`). -/
def ati1Outer (lut : List Nat) (pitch xBase yBase : Nat) : Nat → Nat → Nat → List Store
  | 0, _, _ => []
  | n + 1, py, idx =>
    let r := ati1Inner lut 2 ((yBase + py) * pitch + (xBase <<< 2)) idx
    r.1 ++ ati1Outer lut pitch xBase yBase n (py + 1) r.2

/-- The function `BCTImage::DecodeATI1Block(s, bx, by)`. -/
def DecodeATI1Block (pitch : Nat) (s : BytePtr) (bx by_ : Nat) : List Store :=
  ati1Outer (DecodeATI1Block_lut (s 0).val (s 1).val) pitch (bx <<< 2) (by_ <<< 2) 4 0
    (DecodeATI1Block_idx s)

/-- The array `lut[8]` of the `expandChannel` of `BCTImage::DecodeATI2Block`:
`lut[1 + k] = (unsigned char)((7 - k) * a0 + k * a1 / 7)` for `k = 1..6` when
`a0 > a1`, else `(unsigned char)((5 - k) * a0 + k * a1 / 5)` for `k = 1..4` with
`lut[6] = 0; lut[7] = 255`. -/
def expandChannel_lut (a0 a1 : Nat) : List Nat :=
  if a0 > a1 then
    (List.range' 1 6).foldl
      (fun lut k => lut.set (1 + k) (toUChar ((7 - k) * a0 + k * a1 / 7)))
      [toUChar a0, toUChar a1, 0, 0, 0, 0, 0, 0]
  else
    (((List.range' 1 4).foldl
      (fun lut k => lut.set (1 + k) (toUChar ((5 - k) * a0 + k * a1 / 5)))
      [toUChar a0, toUChar a1, 0, 0, 0, 0, 0, 0]).set 6 0).set 7 255

/-- The lambda `expandChannel(q, out)` of `BCTImage::DecodeATI2Block`: the 16
values of `out`. -/
def expandChannel (q : BytePtr) : List Nat :=
  selectAlpha (expandChannel_lut (q 0).val (q 1).val) (alphaBits (q.advance 2))

/-- The function `BCTImage::DecodeATI2Block(s, bx, by)`. -/
def DecodeATI2Block (pitch : Nat) (s : BytePtr) (bx by_ : Nat) : List Store :=
  ati2Loop (expandChannel s) (expandChannel (s.advance 8)) pitch bx by_

end BCTImage

namespace DDSImage

/-- The function `DDSImage::DecodeDXT1Block(s, bx, by)` on an image with `m_pitch = pitch`:
the stores it makes into `m_pixels`. -/
def DecodeDXT1Block (pitch : Nat) (s : BytePtr) (bx by_ : Nat) : List Store :=
  dxt1Loop (DecodeDXT1Block_clr s) (indexWord s) pitch bx by_

/-- The function `DDSImage::DecodeDXT3Block(s, bx, by)`. -/
def DecodeDXT3Block (pitch : Nat) (s : BytePtr) (bx by_ : Nat) : List Store :=
  DecodeDXT1Block pitch (s.advance 8) bx by_ ++
    storeAlpha (DecodeDXT3Block_alpha s) pitch bx by_

/-- The function `DDSImage::DecodeDXT5Block(s, bx, by)`. -/
def DecodeDXT5Block (pitch : Nat) (s : BytePtr) (bx by_ : Nat) : List Store :=
  DecodeDXT1Block pitch (s.advance 8) bx by_ ++
    storeAlpha (DecodeDXT5Block_alpha s) pitch bx by_

/-- The lambda `expandChannel(q, out)` of `DDSImage::DecodeATI2Block`: the 16
values of `out`. -/
def expandChannel (q : BytePtr) : List Nat :=
  selectAlpha (DecodeDXT5Block_lut (q 0).val (q 1).val) (alphaBits (q.advance 2))

/-- The function `DDSImage::DecodeATI2Block(s, bx, by)`. -/
def DecodeATI2Block (pitch : Nat) (s : BytePtr) (bx by_ : Nat) : List Store :=
  ati2Loop (expandChannel s) (expandChannel (s.advance 8)) pitch bx by_

end DDSImage

/-! ## The DDS decode orchestrator -/

/-- The preprocessor form `FOURCC(a,b,c,d)`, an `unsigned`. -/
def FOURCC (a b c d : Nat) : Nat := (a ||| (b <<< 8) ||| (c <<< 16) ||| (d <<< 24)) % 2 ^ 32

/-- The tag `FOURCC('D','X','T','1')`. -/
def FOURCC_DXT1 : Nat := FOURCC 68 88 84 49

/-- The tag `FOURCC('D','X','T','3')`. -/
def FOURCC_DXT3 : Nat := FOURCC 68 88 84 51

/-- The tag `FOURCC('D','X','T','5')`. -/
def FOURCC_DXT5 : Nat := FOURCC 68 88 84 53

/-- The tag `FOURCC('A','T','I','2')`. -/
def FOURCC_ATI2 : Nat := FOURCC 65 84 73 50

/-- The inner loop `for (bx = 0; bx < bw; ++bx, src += blkLen)` of a block grid
with `n` blocks left in the row: the stores made and the value of `src` (an
offset into `img`) after it. -/
def blockRow (decode : BytePtr → Nat → Nat → List Store) (img : BytePtr) (blkLen by_ : Nat) :
    Nat → Nat → Nat → List Store × Nat
  | 0, _, src => ([], src)
  | n + 1, bx, src =>
    let r := blockRow decode img blkLen by_ n (bx + 1) (src + blkLen)
    (decode (img.advance src) bx by_ ++ r.1, r.2)

/-- The outer loop `for (by = 0; by < bh; ++by)` of a block grid with `n` rows
left. -/
def blockGrid (decode : BytePtr → Nat → Nat → List Store) (img : BytePtr) (blkLen bw : Nat) :
    Nat → Nat → Nat → List Store
  | 0, _, _ => []
  | n + 1, by_, src =>
    let r := blockRow decode img blkLen by_ bw 0 src
    r.1 ++ blockGrid decode img blkLen bw n (by_ + 1) r.2

/-- The conversion `static_cast<int>(x)` of a 32-bit unsigned value (modular,
as on every two's-complement target). -/
def toInt32 (x : Nat) : Int :=
  if x % 2 ^ 32 < 2 ^ 31 then ((x % 2 ^ 32 : Nat) : Int) else ((x % 2 ^ 32 : Nat) : Int) - 2 ^ 32

/-- The value an `int` computation yields for the mathematical result `x`: the
representative of `x` modulo `2^32` in the `int` range (signed overflow wraps,
as on two's-complement hardware). -/
def wrapInt32 (x : Int) : Int := toInt32 (x % 2 ^ 32).toNat

/-- The conversion of an `int` to `size_t`, taken as a 64-bit type. -/
def toSizeT (x : Int) : Nat := (x % 2 ^ 64).toNat

namespace DDSImage

/-- The function `DDSImage::DecodeToBGRA(in, hdr)` on an image with members `m_w`, `m_h`,
`m_pitch` (of type `int`), for a header with `pf.fourCC = fmt` and
`pf.rgbBitCount`, where `stream` holds the bytes of `in` from its read position
on: the returned flag and the stores made into `m_pixels`.  The loops over
`by < bh` and `bx < bw` run `bh` and `bw` times, no time when these are not
positive; the `std::vector` of `bytesNeeded` bytes is taken to be allocated.  A
negative `m_pitch` can meet a non-empty block grid only after the signed
overflow of `m_w * 4`; the block decoders are then given pitch 0. -/
def DecodeToBGRA (m_w m_h m_pitch : Int) (fmt rgbBitCount : Nat) (stream : List Byte) :
    Bool × List Store :=
  if fmt = FOURCC_DXT1 ∨ fmt = FOURCC_DXT3 ∨ fmt = FOURCC_DXT5 ∨ fmt = FOURCC_ATI2 then
    let blkLen := if fmt = FOURCC_DXT1 then 8 else 16
    let bw : Int := wrapInt32 (m_w + 3) >>> 2
    let bh : Int := wrapInt32 (m_h + 3) >>> 2
    let bytesNeeded := (toSizeT bw * toSizeT bh * blkLen) % 2 ^ 64
    let img := stream.take bytesNeeded
    if img.length ≠ bytesNeeded then (false, [])
    else
      (true,
        blockGrid
          (fun src bx by_ =>
            if fmt = FOURCC_DXT1 then DecodeDXT1Block m_pitch.toNat src bx by_
            else if fmt = FOURCC_DXT3 then DecodeDXT3Block m_pitch.toNat src bx by_
            else if fmt = FOURCC_DXT5 then DecodeDXT5Block m_pitch.toNat src bx by_
            else if fmt = FOURCC_ATI2 then DecodeATI2Block m_pitch.toNat src bx by_
            else [])
          (BytePtr.ofList img) blkLen bw.toNat bh.toNat 0 0)
  else if rgbBitCount = 32 then
    let n := (toSizeT m_pitch * toSizeT m_h) % 2 ^ 64
    let got := stream.take n
    (decide (got.length = n), got.enum.map fun ib => (ib.1, ib.2.val))
  else (false, [])

end DDSImage

/-! ## The BCT header reader -/

/-- The function `SwapEndian16(value)` for a `uint16_t` value:
`(value >> 8) | (value << 8)`, returned as a `uint16_t`. -/
def SwapEndian16 (value : Nat) : Nat := ((value >>> 8) ||| (value <<< 8)) % 2 ^ 16

/-- The function `SwapEndian32(value)` for a `uint32_t` value:
`(value >> 24) | ((value >> 8) & 0x0000FF00) | ((value << 8) & 0x00FF0000) | (value << 24)`
in 32-bit arithmetic. -/
def SwapEndian32 (value : Nat) : Nat :=
  ((value >>> 24) ||| ((value >>> 8) &&& 0x0000FF00) ||| (((value <<< 8) % 2 ^ 32) &&& 0x00FF0000)
    ||| ((value <<< 24) % 2 ^ 32)) % 2 ^ 32

/-- The call `in.Read(buffer, n)` on a stream over `file` positioned at `pos`: the bytes
read, at most `n` and fewer when the file ends first. -/
def streamRead (file : List Byte) (pos n : Nat) : List Byte := (file.drop pos).take n

/-- The `uint32_t` number `i` of a byte buffer filled by `Read`, as the
(little-endian) host loads it. -/
def hostWord (buffer : List Byte) (i : Nat) : Nat :=
  (buffer.getD (4 * i) 0).val + 2 ^ 8 * (buffer.getD (4 * i + 1) 0).val +
    2 ^ 16 * (buffer.getD (4 * i + 2) 0).val + 2 ^ 24 * (buffer.getD (4 * i + 3) 0).val

/-- The struct `dr3BctMip_t`. -/
structure dr3BctMip_t where
  dataAddr : Nat
  dataSize : Nat
  flags : Nat
  unk09 : Nat
  deriving DecidableEq

/-- The function `dr3BctMip_t::Read(in, isBigEndian)` with the stream at `pos`: a short read
leaves the entry as it was. -/
def dr3BctMip_t.Read (self : dr3BctMip_t) (file : List Byte) (pos : Nat) (isBigEndian : Bool) :
    dr3BctMip_t :=
  let buffer := streamRead file pos 16
  if buffer.length ≠ 16 then self
  else
    { dataAddr := if isBigEndian then SwapEndian32 (hostWord buffer 0) else hostWord buffer 0
      dataSize := if isBigEndian then SwapEndian32 (hostWord buffer 1) else hostWord buffer 1
      flags := if isBigEndian then SwapEndian32 (hostWord buffer 2) else hostWord buffer 2
      unk09 := if isBigEndian then SwapEndian32 (hostWord buffer 3) else hostWord buffer 3 }

/-- The struct `BCTHeader` (without the unused `unkBuf`). -/
structure BCTHeader where
  isBigEndian : Bool
  sig1 : Nat
  sig2 : Nat
  sig3 : Nat
  sig4 : Nat
  imgWidth : Nat
  imgHeight : Nat
  imgFormat : Nat
  fmtVersion : Nat
  imgMips : Nat
  bitsPerPixel : Nat
  imgHash : Nat
  imgInfoAddr : Nat
  imgInfo : List dr3BctMip_t
  data : List (List Byte)
  deriving DecidableEq

/-- Lines 197-217 of `BCTHeader::Read`: the fields parsed from the 20-byte
`buffer`, then the endianness decision and the re-swap of width, height and
info-table offset. -/
def BCTHeader.parseFields (self : BCTHeader) (buffer : List Byte) : BCTHeader :=
  let b := fun i : Nat => (buffer.getD i 0).val
  let imgWidth := SwapEndian16 (((b 4 <<< 8) ||| b 5) % 2 ^ 16)
  let imgHeight := SwapEndian16 (((b 6 <<< 8) ||| b 7) % 2 ^ 16)
  let imgHash := SwapEndian32 (((b 12 <<< 24) ||| (b 13 <<< 16) ||| (b 14 <<< 8) ||| b 15) % 2 ^ 32)
  let imgInfoAddr :=
    SwapEndian32 (((b 16 <<< 24) ||| (b 17 <<< 16) ||| (b 18 <<< 8) ||| b 19) % 2 ^ 32)
  let isBigEndian : Bool := decide (imgInfoAddr > 16777216)
  { self with
    isBigEndian := isBigEndian
    sig1 := b 0
    sig2 := b 1
    sig3 := b 2
    sig4 := b 3
    imgWidth := if isBigEndian then SwapEndian16 imgWidth else imgWidth
    imgHeight := if isBigEndian then SwapEndian16 imgHeight else imgHeight
    imgFormat := b 8
    fmtVersion := b 9
    imgMips := b 10
    bitsPerPixel := b 11
    imgHash := imgHash
    imgInfoAddr := if isBigEndian then SwapEndian32 imgInfoAddr else imgInfoAddr }

/-- The entry `imgInfo[0]` as `BCTHeader::Read` has it after
`imgInfo.resize(1); imgInfo[0].Read(in, isBigEndian)`: read at
`pos + imgInfoAddr` over a zero-initialised entry. -/
def BCTHeader.firstMip (h : BCTHeader) (file : List Byte) (pos : Nat) : dr3BctMip_t :=
  dr3BctMip_t.Read ⟨0, 0, 0, 0⟩ file (pos + h.imgInfoAddr) h.isBigEndian

/-- Lines 241-250 of `BCTHeader::Read`: for `imgFormat == 0x0A` the size of the
entry is replaced by `blocksX * blocksY * 16`, stored into the `uint32_t`
field. -/
def BCTHeader.fixSize (h : BCTHeader) (mip : dr3BctMip_t) : dr3BctMip_t :=
  if h.imgFormat = 0x0A then
    let blockSize := 16
    let blocksX := (h.imgWidth + 3) / 4
    let blocksY := (h.imgHeight + 3) / 4
    let calculatedSize := blocksX * blocksY * blockSize
    { mip with dataSize := calculatedSize % 2 ^ 32 }
  else mip

/-- The function `BCTHeader::Read(in)` on a stream over `file` positioned at `pos`, called on
the header object `self`: the returned flag and the header object afterwards. -/
def BCTHeader.Read (self : BCTHeader) (file : List Byte) (pos : Nat) : Bool × BCTHeader :=
  let fileSize := file.length
  let buffer := streamRead file pos 20
  if buffer.length ≠ 20 then (false, self)
  else
    let h := self.parseFields buffer
    if h.imgWidth = 0 ∨ h.imgHeight = 0 then (false, h)
    else if pos + h.imgInfoAddr > fileSize then (false, h)
    else
      let mip := h.firstMip file pos
      let h1 := { h with imgInfo := [mip], data := [] }
      if mip.dataAddr = 0 ∨ mip.dataSize = 0 then (false, h1)
      else
        let mip1 := h.fixSize mip
        let h2 := { h1 with imgInfo := [mip1] }
        let dataPos := pos + mip1.dataAddr
        if dataPos + mip1.dataSize > fileSize then (false, h2)
        else
          let got := streamRead file dataPos mip1.dataSize
          let h3 := { h2 with data := [got ++ List.replicate (mip1.dataSize - got.length) 0] }
          if got.length ≠ mip1.dataSize then (false, h3) else (true, h3)

/-! ## The DDS loader -/

/-- The tag `FOURCC('D','D','S',' ')`. -/
def FOURCC_DDS : Nat := FOURCC 68 68 83 32

/-- The struct `DDSPixelFormat`. -/
structure DDSPixelFormat where
  size : Nat
  flags : Nat
  fourCC : Nat
  rgbBitCount : Nat
  rMask : Nat
  gMask : Nat
  bMask : Nat
  aMask : Nat
  deriving DecidableEq

/-- The struct `DDSHeader` (packed, 128 bytes). -/
structure DDSHeader where
  magic : Nat
  size : Nat
  flags : Nat
  height : Nat
  width : Nat
  pitchOrLinearSize : Nat
  depth : Nat
  mipMapCount : Nat
  reserved1 : List Nat
  pf : DDSPixelFormat
  caps : Nat
  caps2 : Nat
  caps3 : Nat
  caps4 : Nat
  reserved2 : Nat
  deriving DecidableEq

/-- The header object after `in.Read(&hdr, sizeof(hdr))` has filled it from
`buffer`: each `unsigned` member is the host word at its offset (bytes that were
not read are taken as zero). -/
def DDSHeader.ofBuffer (buffer : List Byte) : DDSHeader :=
  { magic := hostWord buffer 0
    size := hostWord buffer 1
    flags := hostWord buffer 2
    height := hostWord buffer 3
    width := hostWord buffer 4
    pitchOrLinearSize := hostWord buffer 5
    depth := hostWord buffer 6
    mipMapCount := hostWord buffer 7
    reserved1 := (List.range 11).map fun i => hostWord buffer (8 + i)
    pf :=
      { size := hostWord buffer 19
        flags := hostWord buffer 20
        fourCC := hostWord buffer 21
        rgbBitCount := hostWord buffer 22
        rMask := hostWord buffer 23
        gMask := hostWord buffer 24
        bMask := hostWord buffer 25
        aMask := hostWord buffer 26 }
    caps := hostWord buffer 27
    caps2 := hostWord buffer 28
    caps3 := hostWord buffer 29
    caps4 := hostWord buffer 30
    reserved2 := hostWord buffer 31 }

/-- An allocated pixel buffer `m_pixels`: its size in bytes and the memory
reached from it. -/
structure PixelBuffer where
  size : Nat
  mem : Surface

/-- The members of a `DDSImage` that `LoadFromFile` touches (`m_pixels` is
`none` for a null pointer). -/
structure DDSImage where
  m_pixels : Option PixelBuffer
  m_w : Int
  m_h : Int
  m_pitch : Int
  m_format : String

namespace DDSImage

/-- The function `DDSImage::ReadHeader(in, hdr)` with `stream` the bytes of `in` from its
read position on: the returned flag and the header object. -/
def ReadHeader (stream : List Byte) : Bool × DDSHeader :=
  let buffer := streamRead stream 0 128
  let hdr := DDSHeader.ofBuffer buffer
  if buffer.length ≠ 128 then (false, hdr)
  else if hdr.magic ≠ FOURCC_DDS ∨ hdr.size ≠ 124 ∨ hdr.pf.size ≠ 32 then (false, hdr)
  else (decide (hdr.width ≠ 0) && decide (hdr.height ≠ 0), hdr)

/-- The function `DDSImage::Free()`. -/
def Free (self : DDSImage) : DDSImage :=
  { self with m_pixels := none, m_w := 0, m_h := 0, m_pitch := 0 }

/-- The function `DDSImage::LoadFromFile(filePath)`, where `file` is the content of the
file at `filePath`, `none` when the file cannot be opened: the returned flag
and the object afterwards.  The buffer of `bytes` bytes is taken to be
allocated (`new` does not return null). -/
def LoadFromFile (self : DDSImage) (file : Option (List Byte)) : Bool × DDSImage :=
  let s0 := self.Free
  match file with
  | none => (false, s0)
  | some content =>
    let r := ReadHeader content
    if r.1 = false then (false, s0)
    else
      let hdr := r.2
      let m_w := toInt32 hdr.width
      let m_h := toInt32 hdr.height
      let m_pitch := wrapInt32 (m_w * 4)
      let bytes := (toSizeT m_pitch * toSizeT m_h) % 2 ^ 64
      let d := DecodeToBGRA m_w m_h m_pitch hdr.pf.fourCC hdr.pf.rgbBitCount (content.drop 128)
      let s1 : DDSImage :=
        { s0 with
          m_w := m_w
          m_h := m_h
          m_pitch := m_pitch
          m_pixels := some ⟨bytes, applyStores (fun _ => 0) d.2⟩ }
      if d.1 = false then (false, s1)
      else
        (true,
          { s1 with
            m_format :=
              if hdr.pf.fourCC = FOURCC_DXT1 then "DXT1"
              else if hdr.pf.fourCC = FOURCC_DXT3 then "DXT3"
              else if hdr.pf.fourCC = FOURCC_DXT5 then "DXT5"
              else if hdr.pf.fourCC = FOURCC_ATI2 then "ATI2"
              else "Unknown" })

/-- The accessor `Data()`: whether it returns a non-null pointer. -/
def hasData (self : DDSImage) : Bool := self.m_pixels.isSome

/-- The accessor `Width()`. -/
def Width (self : DDSImage) : Int := self.m_w

/-- The accessor `Height()`. -/
def Height (self : DDSImage) : Int := self.m_h

end DDSImage

/-! ## The console tiling -/

/-- The function `FlipByteOrder16bit(data)`: each pair `data[i]`, `data[i + 1]` with `i`
even is swapped.  For an odd length the source swaps the last byte with the
byte past the end of the vector, which is undefined; this definition leaves the
last byte as it is, so it is the source on vectors of even length. -/
def FlipByteOrder16bit : List Byte → List Byte
  | a :: b :: rest => b :: a :: FlipByteOrder16bit rest
  | l => l

/-- The function `NextPowerOf2(value)` on a `uint32_t`. -/
def NextPowerOf2 (value : Nat) : Nat :=
  if value = 0 then 1
  else
    let v := (value - 1) % 2 ^ 32
    let v := v ||| (v >>> 1)
    let v := v ||| (v >>> 2)
    let v := v ||| (v >>> 4)
    let v := v ||| (v >>> 8)
    let v := v ||| (v >>> 16)
    (v + 1) % 2 ^ 32

/-- The local `logBpp` of the address functions. -/
def xgLogBpp (texelBytePitch : Nat) : Nat :=
  (texelBytePitch >>> 2) + ((texelBytePitch >>> 1) >>> (texelBytePitch >>> 2))

/-- The local `offsetByte = blockOffset << logBpp`, a `uint32_t`. -/
def xgOffsetByte (blockOffset texelBytePitch : Nat) : Nat :=
  (blockOffset <<< xgLogBpp texelBytePitch) % 2 ^ 32

/-- The local `offsetTile` of the address functions, a `uint32_t` (`~0xFFF` is
`0xFFFFF000`). -/
def xgOffsetTile (offsetByte : Nat) : Nat :=
  (((offsetByte &&& 0xFFFFF000) >>> 3) + ((offsetByte &&& 0x700) >>> 2) + (offsetByte &&& 0x3F))
    % 2 ^ 32

/-- The function `XGAddress2DTiledX(blockOffset, widthInBlocks, texelBytePitch)`, as the
`uint32_t` its caller stores; `none` when the remainder is taken by zero.  The
local `macro` of the source is `macroSum` here. -/
def XGAddress2DTiledX (blockOffset widthInBlocks texelBytePitch : Nat) : Option Nat :=
  let alignedWidth := NextPowerOf2 widthInBlocks
  let logBpp := xgLogBpp texelBytePitch
  let offsetByte := xgOffsetByte blockOffset texelBytePitch
  let offsetTile := xgOffsetTile offsetByte
  let offsetMacro := offsetTile >>> (7 + logBpp)
  if alignedWidth >>> 5 = 0 then none
  else
    let macroX := ((offsetMacro % (alignedWidth >>> 5)) <<< 2) % 2 ^ 32
    let tile := ((((offsetTile >>> (5 + logBpp)) &&& 2) + (offsetByte >>> 6)) % 2 ^ 32) &&& 3
    let macroSum := ((macroX + tile) <<< 3) % 2 ^ 32
    let micro :=
      (((((offsetTile >>> 1) &&& 0xFFFFFFF0) + (offsetTile &&& 0xF)) % 2 ^ 32) &&&
        ((texelBytePitch <<< 3) % 2 ^ 32 + 2 ^ 32 - 1) % 2 ^ 32) >>> logBpp
    some ((macroSum + micro) % 2 ^ 32)

/-- The function `XGAddress2DTiledY(blockOffset, widthInBlocks, heightInBlocks,
texelBytePitch)`, as the `uint32_t` its caller stores; `none` when the division
is by zero. -/
def XGAddress2DTiledY (blockOffset widthInBlocks _heightInBlocks texelBytePitch : Nat) :
    Option Nat :=
  let alignedWidth := NextPowerOf2 widthInBlocks
  let logBpp := xgLogBpp texelBytePitch
  let offsetByte := xgOffsetByte blockOffset texelBytePitch
  let offsetTile := xgOffsetTile offsetByte
  let offsetMacro := offsetTile >>> (7 + logBpp)
  if alignedWidth >>> 5 = 0 then none
  else
    let macroY := ((offsetMacro / (alignedWidth >>> 5)) <<< 2) % 2 ^ 32
    let tile := ((offsetTile >>> (6 + logBpp)) &&& 1) + ((offsetByte &&& 0x800) >>> 10)
    let macroSum := ((macroY + tile) <<< 3) % 2 ^ 32
    let micro :=
      ((((offsetTile &&&
            ((((texelBytePitch <<< 6) % 2 ^ 32 + 2 ^ 32 - 1) % 2 ^ 32) &&& 0xFFFFFFE0)) +
          (((offsetTile &&& 0xF) <<< 1) % 2 ^ 32)) % 2 ^ 32) >>> (3 + logBpp)) &&& 0xFFFFFFFE
    some ((macroSum + micro + ((offsetTile &&& 0x10) >>> 4)) % 2 ^ 32)

/-- The body of the loop of `Xbox360ConvertToLinearTexture` for one
`blockOffset`, on the destination buffer `destData`; `none` when an address
function divides by zero. -/
def xboxCopyBlock (data : List Byte) (widthInBlocks heightInBlocks texelBytePitch : Nat)
    (destData : List Byte) (blockOffset : Nat) : Option (List Byte) :=
  match XGAddress2DTiledX blockOffset widthInBlocks texelBytePitch,
      XGAddress2DTiledY blockOffset widthInBlocks heightInBlocks texelBytePitch with
  | some x, some y =>
    if x < widthInBlocks ∧ y < heightInBlocks then
      let srcByteOffset := (blockOffset * texelBytePitch) % 2 ^ 32
      let destByteOffset := (y * widthInBlocks * texelBytePitch + x * texelBytePitch) % 2 ^ 32
      if (srcByteOffset + texelBytePitch) % 2 ^ 32 ≤ data.length ∧
          (destByteOffset + texelBytePitch) % 2 ^ 32 ≤ destData.length then
        some (destData.take destByteOffset ++
          (data.drop srcByteOffset).take texelBytePitch ++
          destData.drop (destByteOffset + texelBytePitch))
      else some destData
    else some destData
  | _, _ => none

/-- The function `Xbox360ConvertToLinearTexture(data, pixelWidth, pixelHeight,
texelBytePitch, blockPixelSize)` for non-negative sizes; `none` when an address
function divides by zero. -/
def Xbox360ConvertToLinearTexture (data : List Byte)
    (pixelWidth pixelHeight texelBytePitch blockPixelSize : Nat) : Option (List Byte) :=
  let widthInBlocks := ((pixelWidth + blockPixelSize + 2 ^ 32 - 1) % 2 ^ 32) / blockPixelSize
  let heightInBlocks := ((pixelHeight + blockPixelSize + 2 ^ 32 - 1) % 2 ^ 32) / blockPixelSize
  let alignedWidth := NextPowerOf2 widthInBlocks
  let alignedHeight := NextPowerOf2 heightInBlocks
  let totalAlignedBlocks := (alignedWidth * alignedHeight) % 2 ^ 32
  let destData : List Byte :=
    List.replicate ((widthInBlocks * heightInBlocks * texelBytePitch) % 2 ^ 32) 0
  (List.range totalAlignedBlocks).foldlM
    (fun dest blockOffset =>
      xboxCopyBlock data widthInBlocks heightInBlocks texelBytePitch dest blockOffset)
    destData

/-! ## The BCT decode orchestrator and loader -/

/-- The function `mapBctToDxgi(fmtID)`. -/
def mapBctToDxgi (fmtID : Nat) : Nat :=
  if fmtID = 0x00 then 28
  else if fmtID = 0x08 then 71
  else if fmtID = 0x0A then 77
  else if fmtID = 0x25 then 80
  else if fmtID = 0x26 then 83
  else if fmtID = 0x27 then 95
  else if fmtID = 0x28 then 98
  else if fmtID = 0x30 then 71
  else if fmtID = 0x32 then 77
  else if fmtID = 0x35 then 28
  else 0

/-- The local array `block[16]` after `memcpy(block, src, blockSize)`: the first
`blockSize` bytes come from `src`, the others keep what the array held before,
`junk`. -/
def copyBlock (src : BytePtr) (blockSize : Nat) (junk : BytePtr) : BytePtr :=
  fun i => if i < blockSize then src i else junk i

/-- The inner loop `for (bx = 0; bx < numBlocksX; ++bx)` of the block path of
`BCTImage::DecodeToBGRA` with `n` blocks left in the row: the stores made and
the value of `blockIdx` after it. -/
def bctBlockRow (decode : BytePtr → Nat → Nat → List Store) (data : BytePtr)
    (blockSize : Nat) (junk : BytePtr) (by_ : Nat) : Nat → Nat → Nat → List Store × Nat
  | 0, _, blockIdx => ([], blockIdx)
  | n + 1, bx, blockIdx =>
    let r := bctBlockRow decode data blockSize junk by_ n (bx + 1) (blockIdx + 1)
    (decode (copyBlock (data.advance (blockIdx * blockSize)) blockSize junk) bx by_ ++ r.1, r.2)

/-- The outer loop `for (by = 0; by < numBlocksY; ++by)` of the block path of
`BCTImage::DecodeToBGRA` with `n` rows left. -/
def bctBlockGrid (decode : BytePtr → Nat → Nat → List Store) (data : BytePtr)
    (blockSize : Nat) (junk : BytePtr) (numBlocksX : Nat) : Nat → Nat → Nat → List Store
  | 0, _, _ => []
  | n + 1, by_, blockIdx =>
    let r := bctBlockRow decode data blockSize junk by_ numBlocksX 0 blockIdx
    r.1 ++ bctBlockGrid decode data blockSize junk numBlocksX n (by_ + 1) r.2

/-- The members of a `BCTImage` (`m_pixels` is `none` for a null pointer; the
`int` members only ever hold values of a `uint16_t` or four times one). -/
structure BCTImage where
  m_pixels : Option PixelBuffer
  m_w : Nat
  m_h : Nat
  m_pitch : Nat
  m_format : Nat
  m_header : BCTHeader

namespace BCTImage

/-- The function `BCTImage::DecodeToBGRA(in)` on an image with members `m_pitch`,
`m_format` and `m_header`, whose `m_pixels` is allocated and whose
`m_header.data` is not empty: the stores made into `m_pixels`, or `none` when
the un-tiling divides by zero.  Payload bytes past the payload's end read as
zero; `junk` is what the local array `block` holds before the first copy.  The
row offsets `y * m_pitch` and `y * mipWidth * 4` of the raw and palette paths
are the exact products, those of the source's `int` while below `2^31`. -/
def DecodeToBGRA (m_pitch m_format : Nat) (m_header : BCTHeader) (junk : BytePtr) :
    Option (List Store) :=
  let payload := m_header.data.headD []
  let mipWidth := m_header.imgWidth
  let mipHeight := m_header.imgHeight
  let blockSize := if m_format = 0x0A ∨ m_format = 0x4D then 16 else 8
  let numBlocksX := (mipWidth + 3) / 4
  let numBlocksY := (mipHeight + 3) / 4
  let sizes : Option (Nat × Nat) :=
    if m_format = 0x1C then some (1, 4)
    else if m_format = 0x00 then some (1, 1)
    else if m_format = 0x0A ∨ m_format = 0x4D then some (4, 16)
    else if m_format = 0x47 then some (4, 8)
    else if m_format = 0x50 then some (4, 8)
    else if m_format = 0x53 then some (4, 16)
    else none
  match sizes with
  | none => some []
  | some (blockPixelSize, texelBytePitch) =>
    let decoded : Option (List Byte) :=
      if m_header.isBigEndian = true ∧
          (m_format = 0x0A ∨ m_format = 0x4D ∨ m_format = 0x47 ∨ m_format = 0x50 ∨
            m_format = 0x53) then
        Xbox360ConvertToLinearTexture (FlipByteOrder16bit payload) mipWidth mipHeight
          texelBytePitch blockPixelSize
      else some payload
    match decoded with
    | none => none
    | some bytes =>
      let decodedMipData := BytePtr.ofList bytes
      if m_format = 0x1C then
        some ((List.range mipHeight).flatMap fun y =>
          (List.range (mipWidth * 4)).map fun k =>
            (y * m_pitch + k, (decodedMipData (y * mipWidth * 4 + k)).val))
      else if m_format = 0x00 then
        some ((List.range mipHeight).flatMap fun y =>
          (List.range mipWidth).flatMap fun x =>
            let index := (decodedMipData (256 * 4 + y * mipWidth + x)).val
            (List.range 4).map fun c =>
              (y * m_pitch + (x * 4 + c), (decodedMipData (index * 4 + c)).val))
      else
        some (bctBlockGrid
          (fun block bx by_ =>
            if m_format = 0x0A then DecodeDXT5Block m_pitch block bx by_
            else if m_format = 0x47 then DecodeDXT1Block m_pitch block bx by_
            else if m_format = 0x4D then DecodeDXT5Block m_pitch block bx by_
            else if m_format = 0x50 then DecodeATI1Block m_pitch block bx by_
            else if m_format = 0x53 then DecodeATI2Block m_pitch block bx by_
            else [])
          decodedMipData blockSize junk numBlocksX numBlocksY 0 0)

/-- The function `BCTImage::Free()`. -/
def Free (self : BCTImage) : BCTImage :=
  { self with m_pixels := none, m_w := 0, m_h := 0, m_pitch := 0 }

/-- The function `BCTImage::LoadFromFile(filePath)`, where `file` is the content of the
file at `filePath`, `none` when the file cannot be opened, and `fresh` is what
the newly allocated, uninitialised pixel buffer holds: the returned flag and
the object afterwards, or `none` when the un-tiling divides by zero. -/
def LoadFromFile (self : BCTImage) (file : Option (List Byte)) (fresh : Surface)
    (junk : BytePtr) : Option (Bool × BCTImage) :=
  let s0 := self.Free
  match file with
  | none => some (false, s0)
  | some content =>
    let r := BCTHeader.Read s0.m_header content 0
    let s1 := { s0 with m_header := r.2 }
    if r.1 = false then some (false, s1)
    else
      let m_w := s1.m_header.imgWidth
      let m_h := s1.m_header.imgHeight
      let m_pitch := m_w * 4
      let m_format := mapBctToDxgi s1.m_header.imgFormat
      let bytes := m_pitch * m_h
      let s2 := { s1 with m_w := m_w, m_h := m_h, m_pitch := m_pitch, m_format := m_format }
      if s1.m_header.data ≠ [] then
        match DecodeToBGRA m_pitch m_format s1.m_header junk with
        | none => none
        | some stores => some (true, { s2 with m_pixels := some ⟨bytes, applyStores fresh stores⟩ })
      else some (true, { s2 with m_pixels := some ⟨bytes, fresh⟩ })

/-- The accessor `Data()`: whether it returns a non-null pointer. -/
def hasData (self : BCTImage) : Bool := self.m_pixels.isSome

/-- The accessor `Width()`. -/
def Width (self : BCTImage) : Nat := self.m_w

/-- The accessor `Height()`. -/
def Height (self : BCTImage) : Nat := self.m_h

end BCTImage

/-! ## The format name and the normal-map post-process -/

/-- The body of the pixel loop of `ApplyNormalRG` at `row`:
`row[0] = toUNorm((nz+1.f)*0.5f)`, where `nz` is computed in floating point from
`row[2]` and `row[1]`, then `row[3] = 255`.  The floating-point computation is
the parameter `zByte`: the byte stored for given values of `row[2]` and
`row[1]`. -/
def normalRGPixel (zByte : Nat → Nat → Nat) (mem : Surface) (row : Nat) : Surface :=
  let z := zByte (mem (row + 2)) (mem (row + 1))
  fun i => if i = row + 3 then 255 else if i = row then z else mem i

/-- The two loops of `ApplyNormalRG` (the same text in both classes):
`for (y < m_h) { row = m_pixels + y*m_pitch; for (x < m_w; row += 4) ... }`,
with `y*m_pitch` the exact product, that of the source's `int` while below
`2^31`. -/
def applyNormalRGLoops (zByte : Nat → Nat → Nat) (m_w m_h m_pitch : Nat) (mem : Surface) :
    Surface :=
  (List.range m_h).foldl
    (fun m y => (List.range m_w).foldl (fun m x => normalRGPixel zByte m (y * m_pitch + 4 * x)) m)
    mem

namespace BCTImage

/-- The function `BCTImage::GetFormat()`. -/
def GetFormat (self : BCTImage) : String :=
  if self.m_format = 28 then "DXT1"
  else if self.m_format = 71 then "DXT3"
  else if self.m_format = 77 then "DXT5"
  else if self.m_format = 80 then "ATI1"
  else if self.m_format = 83 then "ATI2"
  else if self.m_format = 95 then "DXT5"
  else "Unknown"

/-- The function `BCTImage::ApplyNormalRG()`, with the floating-point computation of the
stored byte as the parameter `zByte`. -/
def ApplyNormalRG (zByte : Nat → Nat → Nat) (self : BCTImage) : BCTImage :=
  match self.m_pixels with
  | none => self
  | some buf =>
    { self with
      m_pixels :=
        some ⟨buf.size, applyNormalRGLoops zByte self.m_w self.m_h self.m_pitch buf.mem⟩ }

end BCTImage

namespace DDSImage

/-- The function `DDSImage::ApplyNormalRG()`, with the floating-point computation of the
stored byte as the parameter `zByte`.  The loops run `m_h` and `m_w` times, no
time when these are not positive; a negative `m_pitch` can meet running loops
only after the signed overflow of `m_w * 4` and is then taken as 0. -/
def ApplyNormalRG (zByte : Nat → Nat → Nat) (self : DDSImage) : DDSImage :=
  match self.m_pixels with
  | none => self
  | some buf =>
    { self with
      m_pixels :=
        some ⟨buf.size,
          applyNormalRGLoops zByte self.m_w.toNat self.m_h.toNat self.m_pitch.toNat buf.mem⟩ }

end DDSImage

/-! ## The payload bytes the decode orchestrator reads -/

/-- The offsets into `decodedMipData` of the bytes that the decode loops of
`BCTImage::DecodeToBGRA` read, in order: `memcpy(dst, src, mipWidth * 4)` with
`src = decodedMipData + y * mipWidth * 4` on the raw path;
`memcpy(palette, decodedMipData, 256 * 4)` and then `src[x]` with
`src = decodedMipData + 256 * 4 + y * mipWidth` on the palette path;
`memcpy(block, &decodedMipData[blockIdx * blockSize], blockSize)` on the block
path, where `blockIdx` counts the blocks row by row.  For a little-endian
header `decodedMipData` is the payload `m_header.data[0]` itself. -/
def BCTImage.DecodeToBGRA_offsets (m_format : Nat) (m_header : BCTHeader) : List Nat :=
  let mipWidth := m_header.imgWidth
  let mipHeight := m_header.imgHeight
  let blockSize := if m_format = 0x0A ∨ m_format = 0x4D then 16 else 8
  let numBlocksX := (mipWidth + 3) / 4
  let numBlocksY := (mipHeight + 3) / 4
  if m_format = 0x1C then
    (List.range mipHeight).flatMap fun y =>
      (List.range (mipWidth * 4)).map fun k => y * mipWidth * 4 + k
  else if m_format = 0x00 then
    List.range (256 * 4) ++
      (List.range mipHeight).flatMap fun y =>
        (List.range mipWidth).map fun x => 256 * 4 + y * mipWidth + x
  else if m_format = 0x0A ∨ m_format = 0x4D ∨ m_format = 0x47 ∨ m_format = 0x50 ∨
      m_format = 0x53 then
    (List.range numBlocksY).flatMap fun by_ =>
      (List.range numBlocksX).flatMap fun bx =>
        (List.range blockSize).map fun i => (by_ * numBlocksX + bx) * blockSize + i
  else []

/-! ## Reference definitions taken from the specification -/

/-- The per-texel reference of the BC1 index field, in the specification's
words: texel `(px, py)` of block `(bx, by)`, at byte offset
`(4*by + py)*pitch + (4*bx + px)*4`, gets palette entry number
`(idx >> 2*(4*py + px)) & 3`; texels are taken row by row. -/
def dxt1PerTexelReference (clr : List (List Nat)) (idx pitch bx by_ : Nat) : List Store :=
  (List.range 4).flatMap fun py =>
    (List.range 4).flatMap fun px =>
      storePixel ((4 * by_ + py) * pitch + (4 * bx + px) * 4)
        (clr.getD ((idx >>> (2 * (4 * py + px))) &&& 3) [])

/-! ## Arithmetic of the helpers -/

theorem r5_getD (v : Nat) (hv : v < 32) : Tables.r5.getD v 0 = 8 * v + v / 4 := by
  interval_cases v <;> rfl

theorem g6_getD (v : Nat) (hv : v < 64) : Tables.g6.getD v 0 = 4 * v + v / 16 := by
  interval_cases v <;> rfl

theorem Expand565_eq (c : Nat) :
    Expand565 c =
      (8 * (c / 2048 % 32) + c / 2048 % 32 / 4,
       4 * (c / 32 % 64) + c / 32 % 64 / 16,
       8 * (c % 32) + c % 32 / 4) := by
  have h5 : ∀ x : Nat, x &&& 0x1F = x % 32 := fun x => Nat.and_pow_two_sub_one_eq_mod x 5
  have h6 : ∀ x : Nat, x &&& 0x3F = x % 64 := fun x => Nat.and_pow_two_sub_one_eq_mod x 6
  simp only [Expand565, h5, h6, Nat.shiftRight_eq_div_pow]
  rw [r5_getD _ (Nat.mod_lt _ (by norm_num)), g6_getD _ (Nat.mod_lt _ (by norm_num)),
    r5_getD _ (Nat.mod_lt _ (by norm_num))]

theorem expand5_eq (v : Nat) (hv : v < 32) : (v <<< 3) ||| (v >>> 2) = 8 * v + v / 4 := by
  interval_cases v <;> rfl

theorem expand6_eq (v : Nat) (hv : v < 64) : (v <<< 2) ||| (v >>> 4) = 4 * v + v / 16 := by
  interval_cases v <;> rfl

theorem le_word (a b : Byte) : a.val ||| (b.val <<< 8) = a.val + 256 * b.val := by
  have ha := a.isLt
  rw [Nat.shiftLeft_eq, Nat.or_comm, Nat.mul_comm b.val, Nat.add_comm]
  exact (Nat.mul_add_lt_is_or (show a.val < 2 ^ 8 by simp) b.val).symm

theorem endpoint0_eq (s : BytePtr) : endpoint0 s = (s 0).val + 256 * (s 1).val :=
  le_word _ _

theorem endpoint1_eq (s : BytePtr) : endpoint1 s = (s 2).val + 256 * (s 3).val :=
  le_word _ _

theorem lerpByte_one (a b : Nat) (ha : a ≤ 255) (hb : b ≤ 255) :
    lerpByte a b 1 = (2 * a + b) / 3 := by
  simp only [lerpByte, toUChar]
  norm_num
  omega

theorem lerpByte_zero (a b : Nat) (ha : a ≤ 255) (hb : b ≤ 255) :
    lerpByte a b 0 = (a + b) >>> 1 := by
  simp only [lerpByte, toUChar, Nat.shiftRight_eq_div_pow]
  norm_num
  omega

/-! ## C2: the BC1 palette of `BCTImage::DecodeDXT1Block` -/

/-- C2. For every 8-byte BC1 block with little-endian endpoint words `c0`
(bytes 0, 1) and `c1` (bytes 2, 3), the palette of
`BCTImage::DecodeDXT1Block` is: entry 0 the expansion of `c0` and entry 1 the
expansion of `c1`, each stored blue (bits 0-4), green (bits 5-10), red (bits
11-15), alpha 255; when `c0 > c1`, entry 2 is `(2*x0 + x1)/3` and entry 3 is
`(x0 + 2*x1)/3` per channel with alpha 255; otherwise entry 2 is
`(x0 + x1) >> 1` per channel with alpha 255 and entry 3 is `(0, 0, 0, 0)`. -/
theorem BCTImage.DecodeDXT1Block_clr_spec (s : BytePtr) :
    let c0 := (s 0).val + 256 * (s 1).val
    let c1 := (s 2).val + 256 * (s 3).val
    let x5 := fun v : Nat => (v <<< 3) ||| (v >>> 2)
    let x6 := fun v : Nat => (v <<< 2) ||| (v >>> 4)
    let b0 := x5 (c0 % 32)
    let g0 := x6 (c0 / 32 % 64)
    let r0 := x5 (c0 / 2048 % 32)
    let b1 := x5 (c1 % 32)
    let g1 := x6 (c1 / 32 % 64)
    let r1 := x5 (c1 / 2048 % 32)
    BCTImage.DecodeDXT1Block_clr s =
      [[b0, g0, r0, 255],
       [b1, g1, r1, 255],
       if c0 > c1 then [(2 * b0 + b1) / 3, (2 * g0 + g1) / 3, (2 * r0 + r1) / 3, 255]
       else [(b0 + b1) >>> 1, (g0 + g1) >>> 1, (r0 + r1) >>> 1, 255],
       if c0 > c1 then [(b0 + 2 * b1) / 3, (g0 + 2 * g1) / 3, (r0 + 2 * r1) / 3, 255]
       else [0, 0, 0, 0]] := by
  intro c0 c1 x5 x6 b0 g0 r0 b1 g1 r1
  have e5 : ∀ v, v < 32 → x5 v = 8 * v + v / 4 := expand5_eq
  have e6 : ∀ v, v < 64 → x6 v = 4 * v + v / 16 := expand6_eq
  have hb0 : b0 = 8 * (c0 % 32) + c0 % 32 / 4 := e5 _ (Nat.mod_lt _ (by norm_num))
  have hg0 : g0 = 4 * (c0 / 32 % 64) + c0 / 32 % 64 / 16 := e6 _ (Nat.mod_lt _ (by norm_num))
  have hr0 : r0 = 8 * (c0 / 2048 % 32) + c0 / 2048 % 32 / 4 := e5 _ (Nat.mod_lt _ (by norm_num))
  have hb1 : b1 = 8 * (c1 % 32) + c1 % 32 / 4 := e5 _ (Nat.mod_lt _ (by norm_num))
  have hg1 : g1 = 4 * (c1 / 32 % 64) + c1 / 32 % 64 / 16 := e6 _ (Nat.mod_lt _ (by norm_num))
  have hr1 : r1 = 8 * (c1 / 2048 % 32) + c1 / 2048 % 32 / 4 := e5 _ (Nat.mod_lt _ (by norm_num))
  have lb0 : b0 ≤ 255 := by omega
  have lg0 : g0 ≤ 255 := by omega
  have lr0 : r0 ≤ 255 := by omega
  have lb1 : b1 ≤ 255 := by omega
  have lg1 : g1 ≤ 255 := by omega
  have lr1 : r1 ≤ 255 := by omega
  simp only [BCTImage.DecodeDXT1Block_clr, Expand565_eq, endpoint0_eq, endpoint1_eq]
  rw [← hb0, ← hg0, ← hr0, ← hb1, ← hg1, ← hr1]
  by_cases h : c0 > c1
  · have h' : (s 0).val + 256 * (s 1).val > (s 2).val + 256 * (s 3).val := h
    simp only [h, h', decide_True, if_true, lerpByte_one, lb0, lg0, lr0, lb1, lg1, lr1]
    simp only [Nat.add_comm]
  · have h' : ¬ (s 0).val + 256 * (s 1).val > (s 2).val + 256 * (s 3).val := h
    simp only [h, h', decide_False, if_false, lerpByte_zero, lb0, lg0, lr0, lb1, lg1, lr1]
    simp

/-! ## The BC1 index loop and its per-texel reference -/

theorem or_shl (x b k : Nat) (hx : x < 2 ^ k) : x ||| (b <<< k) = x + 2 ^ k * b := by
  rw [Nat.shiftLeft_eq, Nat.or_comm, Nat.mul_comm b, Nat.add_comm]
  exact (Nat.mul_add_lt_is_or hx b).symm

theorem indexWord_eq (s : BytePtr) :
    indexWord s = (s 4).val + 2 ^ 8 * (s 5).val + 2 ^ 16 * (s 6).val + 2 ^ 24 * (s 7).val := by
  have h4 := (s 4).isLt
  have h5 := (s 5).isLt
  have h6 := (s 6).isLt
  have h7 := (s 7).isLt
  unfold indexWord
  rw [or_shl _ _ 8 (by omega), or_shl _ _ 16 (by omega), or_shl _ _ 24 (by omega)]
  apply Nat.mod_eq_of_lt
  omega

theorem dxt1Loop_eq_reference (clr : List (List Nat)) (idx pitch bx by_ : Nat) :
    dxt1Loop clr idx pitch bx by_ = dxt1PerTexelReference clr idx pitch bx by_ := by
  have r4 : List.range 4 = [0, 1, 2, 3] := rfl
  simp only [dxt1Loop, dxt1Outer, dxt1Inner, dxt1Pair, dxt1PerTexelReference, r4,
    List.flatMap_cons, List.flatMap_nil, List.append_nil, List.append_assoc, Nat.shiftLeft_eq,
    ← Nat.shiftRight_add]
  norm_num
  ring_nf

theorem flatMap_contains_of_mem {α β : Type} (f : α → List β) (l : List α) (x : α) (h : x ∈ l) :
    f x <:+: l.flatMap f := by
  obtain ⟨a, b, rfl⟩ := List.append_of_mem h
  rw [List.flatMap_append, List.flatMap_cons]
  exact ⟨a.flatMap f, b.flatMap f, by simp only [List.append_assoc]⟩

theorem reference_contains (clr : List (List Nat)) (idx pitch bx by_ : Nat) (px py : Fin 4) :
    storePixel ((4 * by_ + py.val) * pitch + (4 * bx + px.val) * 4)
        (clr.getD ((idx >>> (2 * (4 * py.val + px.val))) &&& 3) []) <:+:
      dxt1PerTexelReference clr idx pitch bx by_ := by
  have hpy : py.val ∈ List.range 4 := List.mem_range.2 py.isLt
  have hpx : px.val ∈ List.range 4 := List.mem_range.2 px.isLt
  exact (flatMap_contains_of_mem
      (fun px => storePixel ((4 * by_ + py.val) * pitch + (4 * bx + px) * 4)
        (clr.getD ((idx >>> (2 * (4 * py.val + px))) &&& 3) [])) _ _ hpx).trans
    (flatMap_contains_of_mem
      (fun py => (List.range 4).flatMap fun px =>
        storePixel ((4 * by_ + py) * pitch + (4 * bx + px) * 4)
          (clr.getD ((idx >>> (2 * (4 * py + px))) &&& 3) [])) _ _ hpy)

/-! ## C4: the DXT5 alpha palette -/

theorem DecodeDXT5Block_lut_eq (a0 a1 : Byte) :
    DecodeDXT5Block_lut a0.val a1.val =
      if a0.val > a1.val then
        [a0.val, a1.val,
          ((7 - 1) * a0.val + 1 * a1.val) / 7, ((7 - 2) * a0.val + 2 * a1.val) / 7,
          ((7 - 3) * a0.val + 3 * a1.val) / 7, ((7 - 4) * a0.val + 4 * a1.val) / 7,
          ((7 - 5) * a0.val + 5 * a1.val) / 7, ((7 - 6) * a0.val + 6 * a1.val) / 7]
      else
        [a0.val, a1.val,
          ((5 - 1) * a0.val + 1 * a1.val) / 5, ((5 - 2) * a0.val + 2 * a1.val) / 5,
          ((5 - 3) * a0.val + 3 * a1.val) / 5, ((5 - 4) * a0.val + 4 * a1.val) / 5,
          0, 255] := by
  have h0 := a0.isLt
  have h1 := a1.isLt
  have r6 : List.range' 1 6 = [1, 2, 3, 4, 5, 6] := rfl
  have r4 : List.range' 1 4 = [1, 2, 3, 4] := rfl
  unfold DecodeDXT5Block_lut
  split_ifs with h
  · simp only [r6, List.foldl_cons, List.foldl_nil, toUChar, List.set_cons_succ, List.set_cons_zero]
    norm_num
    omega
  · simp only [r4, List.foldl_cons, List.foldl_nil, toUChar, List.set_cons_succ, List.set_cons_zero]
    norm_num
    omega

/-- C4. For every pair of alpha endpoints `a0`, `a1` in `0..255`, the 8-entry
alpha palette of `DecodeDXT5Block` has slot 0 = `a0`, slot 1 = `a1`; when
`a0 > a1`, slot `1+k` is `((7-k)*a0 + k*a1)/7` for `k = 1..6`; otherwise slot
`1+k` is `((5-k)*a0 + k*a1)/5` for `k = 1..4`, slot 6 is 0 and slot 7 is 255.
For `a0 = 50`, `a1 = 200` slot 6 is 0 and slot 7 is 255. -/
theorem DecodeDXT5Block_lut_spec (a0 a1 : Byte) :
    DecodeDXT5Block_lut a0.val a1.val =
      (if a0.val > a1.val then
        [a0.val, a1.val,
          ((7 - 1) * a0.val + 1 * a1.val) / 7, ((7 - 2) * a0.val + 2 * a1.val) / 7,
          ((7 - 3) * a0.val + 3 * a1.val) / 7, ((7 - 4) * a0.val + 4 * a1.val) / 7,
          ((7 - 5) * a0.val + 5 * a1.val) / 7, ((7 - 6) * a0.val + 6 * a1.val) / 7]
      else
        [a0.val, a1.val,
          ((5 - 1) * a0.val + 1 * a1.val) / 5, ((5 - 2) * a0.val + 2 * a1.val) / 5,
          ((5 - 3) * a0.val + 3 * a1.val) / 5, ((5 - 4) * a0.val + 4 * a1.val) / 5,
          0, 255]) ∧
    (DecodeDXT5Block_lut 50 200).getD 6 0 = 0 ∧ (DecodeDXT5Block_lut 50 200).getD 7 0 = 255 :=
  ⟨DecodeDXT5Block_lut_eq a0 a1, by decide, by decide⟩

/-! ## C1: a DDS surface whose width is not a multiple of 4 -/

/-- C1 (the code at a failing input). A 5 x 2 DXT1 image whose payload holds
its two blocks, the first all white (`c0 = 0xFFFF`, indices 0) and the second
all black: `DecodeToBGRA` succeeds, and byte 0 of pixel `(0, 1)`, at offset
`(1*5 + 0)*4 = 20`, ends as 0.  Texel `(0, 1)` of the block at payload offset
0, which the claim puts there, has byte 0 equal to 255; the 0 is texel `(1, 0)`
of the second block, stored past the end of row 0.  The same run also stores
at offsets from `5*2*4` on, past the surface. -/
theorem DecodeToBGRA_width5_row_spill :
    (DDSImage.DecodeToBGRA 5 2 20 FOURCC_DXT1 0
      [255, 255, 0, 0, 0, 0, 0, 0, 0, 0, 0, 0, 0, 0, 0, 0]).1 = true ∧
    applyStores (fun _ => 0) (DDSImage.DecodeToBGRA 5 2 20 FOURCC_DXT1 0
      [255, 255, 0, 0, 0, 0, 0, 0, 0, 0, 0, 0, 0, 0, 0, 0]).2 20 = 0 ∧
    applyStores (fun _ => 0)
      (DDSImage.DecodeDXT1Block 16 (BytePtr.ofList [255, 255, 0, 0, 0, 0, 0, 0]) 0 0) 16 = 255 ∧
    applyStores (fun _ => 0)
      (DDSImage.DecodeDXT1Block 16 (BytePtr.ofList [0, 0, 0, 0, 0, 0, 0, 0]) 0 0) 4 = 0 ∧
    (DDSImage.DecodeToBGRA 5 2 20 FOURCC_DXT1 0
      [255, 255, 0, 0, 0, 0, 0, 0, 0, 0, 0, 0, 0, 0, 0, 0]).2.any
        (fun st => decide (5 * 2 * 4 ≤ st.1)) = true := by
  refine ⟨by decide, by decide, by decide, by decide, by decide⟩

/-! ## C7, C8, C9: the BC5 and BC4 decoders at concrete blocks -/

/-- C7 (the code at a failing input). For the sub-block
`200, 50, 2, 0, 0, 0, 0, 0` (endpoints 200 > 50, texel 0 selects slot 2) the
`expandChannel` of `BCTImage::DecodeATI2Block` gives 183 for texel 0, while the
alpha decoding of `DecodeDXT5Block` on the same 8 bytes, and the
`expandChannel` of `DDSImage::DecodeATI2Block`, give 178. -/
theorem expandChannel_precedence :
    (BCTImage.expandChannel (BytePtr.ofList [200, 50, 2, 0, 0, 0, 0, 0])).getD 0 0 = 183 ∧
    (DecodeDXT5Block_alpha (BytePtr.ofList [200, 50, 2, 0, 0, 0, 0, 0])).getD 0 0 = 178 ∧
    (DDSImage.expandChannel (BytePtr.ofList [200, 50, 2, 0, 0, 0, 0, 0])).getD 0 0 = 178 := by
  refine ⟨by decide, by decide, by decide⟩

/-- C8 (the code at a failing input). For the block whose first sub-block
decodes to 10 everywhere and whose second sub-block decodes to 20 everywhere,
`DecodeATI2Block` (in `BCTImage` and in `DDSImage`) leaves the bytes
`10, 20, 127, 255` in pixel 0: the first sub-block's value is in byte 0 and the
constant 127 in byte 2. -/
theorem DecodeATI2Block_byte_slots :
    (List.range 4).map (applyStores (fun _ => 0)
      (BCTImage.DecodeATI2Block 16
        (BytePtr.ofList [10, 10, 0, 0, 0, 0, 0, 0, 20, 20, 0, 0, 0, 0, 0, 0]) 0 0)) =
      [10, 20, 127, 255] ∧
    (List.range 4).map (applyStores (fun _ => 0)
      (DDSImage.DecodeATI2Block 16
        (BytePtr.ofList [10, 10, 0, 0, 0, 0, 0, 0, 20, 20, 0, 0, 0, 0, 0, 0]) 0 0)) =
      [10, 20, 127, 255] ∧
    (BCTImage.expandChannel
      (BytePtr.ofList [10, 10, 0, 0, 0, 0, 0, 0, 20, 20, 0, 0, 0, 0, 0, 0])).getD 0 0 = 10 ∧
    (BCTImage.expandChannel (BytePtr.advance
      (BytePtr.ofList [10, 10, 0, 0, 0, 0, 0, 0, 20, 20, 0, 0, 0, 0, 0, 0]) 8)).getD 0 0 = 20 := by
  refine ⟨by decide, by decide, by decide, by decide⟩

/-- C9 (the code at a failing input). For the BC4 block
`200, 50, 2, 0, 0, 0, 0, 0` (endpoints 200 > 50, texel 0 selects slot 2)
`BCTImage::DecodeATI1Block` leaves 246 in the alpha byte of texel 0, while slot
2 of the BC3 divide-by-7 palette is 178.  For the block
`200, 50, 8, 0, 0, 0, 0, 0` (texel 1 selects slot 1, which is 50) it leaves 246
in the alpha byte of texel 1. -/
theorem DecodeATI1Block_palette_and_stride :
    applyStores (fun _ => 0)
      (BCTImage.DecodeATI1Block 16 (BytePtr.ofList [200, 50, 2, 0, 0, 0, 0, 0]) 0 0) 3 = 246 ∧
    (DecodeDXT5Block_lut 200 50).getD ((2 >>> (3 * 0)) &&& 7) 0 = 178 ∧
    applyStores (fun _ => 0)
      (BCTImage.DecodeATI1Block 16 (BytePtr.ofList [200, 50, 8, 0, 0, 0, 0, 0]) 0 0) 7 = 246 ∧
    (DecodeDXT5Block_lut 200 50).getD ((8 >>> (3 * 1)) &&& 7) 0 = 50 := by
  refine ⟨by decide, by decide, by decide, by decide⟩

/-! ## C10: what `BCTHeader::Read` rejects -/

theorem fixSize_dataAddr (h : BCTHeader) (mip : dr3BctMip_t) :
    (h.fixSize mip).dataAddr = mip.dataAddr := by
  unfold BCTHeader.fixSize
  split_ifs <;> rfl

/-- C10. `BCTHeader::Read` returns false for every file and start position in
which, after the endianness correction, the width is 0, or the height is 0, or
base position + info-table offset exceeds the file length, or the first mip
entry's address is 0, or its declared size is 0, or base position + mip
address + mip size exceeds the file length; the mip size of the last test is
the one the header holds at that point (the declared size, replaced by the
recomputed one for format 0x0A), and the sums are those of natural numbers. -/
theorem BCTHeader_Read_rejects (self : BCTHeader) (file : List Byte) (pos : Nat) :
    let h := self.parseFields (streamRead file pos 20)
    let mip := h.firstMip file pos
    let size := (h.fixSize mip).dataSize
    (h.imgWidth = 0 ∨ h.imgHeight = 0 ∨ pos + h.imgInfoAddr > file.length ∨
      mip.dataAddr = 0 ∨ mip.dataSize = 0 ∨ pos + mip.dataAddr + size > file.length) →
    (BCTHeader.Read self file pos).1 = false := by
  intro h mip size hbad
  unfold BCTHeader.Read
  simp only
  split_ifs with h1 h2 h3 h4 h5 h6
  · rfl
  · rfl
  · rfl
  · rfl
  · rfl
  · rfl
  · exfalso
    rw [fixSize_dataAddr] at h5
    rcases hbad with hb | hb | hb | hb | hb | hb
    · exact h2 (Or.inl hb)
    · exact h2 (Or.inr hb)
    · exact h3 hb
    · exact h4 (Or.inl hb)
    · exact h4 (Or.inr hb)
    · exact h5 hb

/-- C10 at a concrete file: a 43-byte file whose mip entry declares address 36
and size 8. -/
theorem BCTHeader_Read_rejects_witness :
    0 + 36 + 8 > ([7, 1, 2, 32, 4, 0, 4, 0, 8, 0, 1, 0, 0, 0, 0, 0, 20, 0, 0, 0,
        36, 0, 0, 0, 8, 0, 0, 0, 0, 0, 0, 0, 0, 0, 0, 0, 1, 2, 3, 4, 5, 6, 7] : List Byte).length ∧
    (BCTHeader.Read ⟨false, 0, 0, 0, 0, 0, 0, 0, 0, 0, 0, 0, 0, [], []⟩
      [7, 1, 2, 32, 4, 0, 4, 0, 8, 0, 1, 0, 0, 0, 0, 0, 20, 0, 0, 0,
        36, 0, 0, 0, 8, 0, 0, 0, 0, 0, 0, 0, 0, 0, 0, 0, 1, 2, 3, 4, 5, 6, 7] 0).1 = false :=
  ⟨by decide,
    BCTHeader_Read_rejects ⟨false, 0, 0, 0, 0, 0, 0, 0, 0, 0, 0, 0, 0, [], []⟩
      [7, 1, 2, 32, 4, 0, 4, 0, 8, 0, 1, 0, 0, 0, 0, 0, 20, 0, 0, 0,
        36, 0, 0, 0, 8, 0, 0, 0, 0, 0, 0, 0, 0, 0, 0, 0, 1, 2, 3, 4, 5, 6, 7] 0
      (Or.inr (Or.inr (Or.inr (Or.inr (Or.inr (by decide))))))⟩

/-! ## C11, C12: endianness and the header fields -/

theorem and_shifted_mask (y k n : Nat) :
    y &&& ((2 ^ n - 1) <<< k) = ((y >>> k) % 2 ^ n) <<< k := by
  apply Nat.eq_of_testBit_eq
  intro i
  rw [← Nat.and_pow_two_sub_one_eq_mod]
  simp only [Nat.testBit_and, Nat.testBit_shiftLeft, Nat.testBit_shiftRight, Nat.testBit_two_pow_sub_one]
  by_cases h : k ≤ i
  · simp [h, Nat.add_sub_cancel' h]
  · simp [h]

theorem shl_or (x b k : Nat) (hx : x < 2 ^ k) : (b <<< k) ||| x = 2 ^ k * b + x := by
  rw [Nat.or_comm, or_shl x b k hx, Nat.add_comm]

theorem SwapEndian16_bytes (a b : Nat) (ha : a < 256) (hb : b < 256) :
    SwapEndian16 (((a <<< 8) ||| b) % 2 ^ 16) = a + 256 * b := by
  have e : (a <<< 8) ||| b = 2 ^ 8 * a + b := shl_or b a 8 (by omega)
  have h1 : (2 ^ 8 * a + b) % 2 ^ 16 = 256 * a + b := by omega
  rw [e, h1]
  unfold SwapEndian16
  have h2 : (256 * a + b) >>> 8 = a := by
    rw [Nat.shiftRight_eq_div_pow]; omega
  rw [h2, or_shl a _ 8 (by omega)]
  omega

theorem SwapEndian16_swapped (a b : Nat) (ha : a < 256) (hb : b < 256) :
    SwapEndian16 (a + 256 * b) = 256 * a + b := by
  unfold SwapEndian16
  have h2 : (a + 256 * b) >>> 8 = b := by
    rw [Nat.shiftRight_eq_div_pow]; omega
  rw [h2, or_shl b _ 8 (by omega)]
  omega

theorem SwapEndian32_word (a b c d : Nat) (ha : a < 256) (hb : b < 256) (hc : c < 256)
    (hd : d < 256) :
    SwapEndian32 (2 ^ 24 * a + 2 ^ 16 * b + 2 ^ 8 * c + d) =
      a + 2 ^ 8 * b + 2 ^ 16 * c + 2 ^ 24 * d := by
  unfold SwapEndian32
  have m1 : (0x0000FF00 : Nat) = (2 ^ 8 - 1) <<< 8 := by decide
  have m2 : (0x00FF0000 : Nat) = (2 ^ 8 - 1) <<< 16 := by decide
  rw [m1, m2, and_shifted_mask, and_shifted_mask]
  simp only [Nat.shiftRight_eq_div_pow, Nat.shiftLeft_eq]
  have e1 : (2 ^ 24 * a + 2 ^ 16 * b + 2 ^ 8 * c + d) / 2 ^ 24 = a := by omega
  have e2 : (2 ^ 24 * a + 2 ^ 16 * b + 2 ^ 8 * c + d) / 2 ^ 8 / 2 ^ 8 % 2 ^ 8 = b := by omega
  have e3 : (2 ^ 24 * a + 2 ^ 16 * b + 2 ^ 8 * c + d) * 2 ^ 8 % 2 ^ 32 / 2 ^ 16 % 2 ^ 8 = c := by
    omega
  have e4 : (2 ^ 24 * a + 2 ^ 16 * b + 2 ^ 8 * c + d) * 2 ^ 24 % 2 ^ 32 = 2 ^ 24 * d := by omega
  rw [e1, e2, e3, e4]
  have e5 : 2 ^ 24 * d = d <<< 24 := by rw [Nat.shiftLeft_eq, Nat.mul_comm]
  rw [e5, ← Nat.shiftLeft_eq b 8, ← Nat.shiftLeft_eq c 16]
  rw [or_shl a b 8 (by omega), or_shl _ c 16 (by omega), or_shl _ d 24 (by omega)]
  simp only [Nat.shiftLeft_eq]
  omega

theorem be_word32 (a b c d : Nat) (hb : b < 256) (hc : c < 256) (hd : d < 256) :
    ((a <<< 24) ||| (b <<< 16) ||| (c <<< 8) ||| d) = 2 ^ 24 * a + 2 ^ 16 * b + 2 ^ 8 * c + d := by
  have e : ∀ A B C D : Nat, A ||| B ||| C ||| D = D ||| C ||| B ||| A := by
    intro A B C D
    rw [Nat.or_comm (A ||| B ||| C) D, Nat.or_comm (A ||| B) C, Nat.or_comm A B,
      ← Nat.or_assoc, ← Nat.or_assoc]
  rw [e, or_shl _ _ 8 (by omega), or_shl _ _ 16 (by omega), or_shl _ _ 24 (by omega)]
  omega

theorem SwapEndian32_bytes (a b c d : Nat) (ha : a < 256) (hb : b < 256) (hc : c < 256)
    (hd : d < 256) :
    SwapEndian32 (((a <<< 24) ||| (b <<< 16) ||| (c <<< 8) ||| d) % 2 ^ 32) =
      a + 2 ^ 8 * b + 2 ^ 16 * c + 2 ^ 24 * d := by
  rw [be_word32 _ _ _ _ hb hc hd, Nat.mod_eq_of_lt (by omega)]
  exact SwapEndian32_word _ _ _ _ ha hb hc hd

theorem SwapEndian32_swapped (a b c d : Nat) (ha : a < 256) (hb : b < 256) (hc : c < 256)
    (hd : d < 256) :
    SwapEndian32 (a + 2 ^ 8 * b + 2 ^ 16 * c + 2 ^ 24 * d) =
      2 ^ 24 * a + 2 ^ 16 * b + 2 ^ 8 * c + d := by
  have e : a + 2 ^ 8 * b + 2 ^ 16 * c + 2 ^ 24 * d = 2 ^ 24 * d + 2 ^ 16 * c + 2 ^ 8 * b + a := by
    omega
  rw [e, SwapEndian32_word _ _ _ _ hd hc hb ha]
  omega

theorem parseFields_fields (self : BCTHeader) (buffer : List Byte) :
    (self.parseFields buffer).isBigEndian =
      decide ((buffer.getD 16 0).val + 2 ^ 8 * (buffer.getD 17 0).val +
        2 ^ 16 * (buffer.getD 18 0).val + 2 ^ 24 * (buffer.getD 19 0).val > 16777216) ∧
    (self.parseFields buffer).imgWidth =
      (if (self.parseFields buffer).isBigEndian then
        256 * (buffer.getD 4 0).val + (buffer.getD 5 0).val
      else (buffer.getD 4 0).val + 256 * (buffer.getD 5 0).val) ∧
    (self.parseFields buffer).imgHeight =
      (if (self.parseFields buffer).isBigEndian then
        256 * (buffer.getD 6 0).val + (buffer.getD 7 0).val
      else (buffer.getD 6 0).val + 256 * (buffer.getD 7 0).val) ∧
    (self.parseFields buffer).imgInfoAddr =
      (if (self.parseFields buffer).isBigEndian then
        2 ^ 24 * (buffer.getD 16 0).val + 2 ^ 16 * (buffer.getD 17 0).val +
          2 ^ 8 * (buffer.getD 18 0).val + (buffer.getD 19 0).val
      else (buffer.getD 16 0).val + 2 ^ 8 * (buffer.getD 17 0).val +
        2 ^ 16 * (buffer.getD 18 0).val + 2 ^ 24 * (buffer.getD 19 0).val) := by
  have h4 := (buffer.getD 4 0).isLt
  have h5 := (buffer.getD 5 0).isLt
  have h6 := (buffer.getD 6 0).isLt
  have h7 := (buffer.getD 7 0).isLt
  have h16 := (buffer.getD 16 0).isLt
  have h17 := (buffer.getD 17 0).isLt
  have h18 := (buffer.getD 18 0).isLt
  have h19 := (buffer.getD 19 0).isLt
  simp only [BCTHeader.parseFields, SwapEndian16_bytes _ _ h4 h5, SwapEndian16_bytes _ _ h6 h7,
    SwapEndian32_bytes _ _ _ _ h16 h17 h18 h19]
  refine ⟨trivial, ?_, ?_, ?_⟩
  · split_ifs
    · exact SwapEndian16_swapped _ _ h4 h5
    · rfl
  · split_ifs
    · exact SwapEndian16_swapped _ _ h6 h7
    · rfl
  · split_ifs
    · exact SwapEndian32_swapped _ _ _ _ h16 h17 h18 h19
    · rfl

theorem Read_header_fields (self : BCTHeader) (file : List Byte) (pos : Nat)
    (h20 : (streamRead file pos 20).length = 20) :
    (BCTHeader.Read self file pos).2.isBigEndian =
        (self.parseFields (streamRead file pos 20)).isBigEndian ∧
      (BCTHeader.Read self file pos).2.imgWidth =
        (self.parseFields (streamRead file pos 20)).imgWidth ∧
      (BCTHeader.Read self file pos).2.imgHeight =
        (self.parseFields (streamRead file pos 20)).imgHeight ∧
      (BCTHeader.Read self file pos).2.imgInfoAddr =
        (self.parseFields (streamRead file pos 20)).imgInfoAddr ∧
      (BCTHeader.Read self file pos).2.imgFormat =
        (self.parseFields (streamRead file pos 20)).imgFormat ∧
      (BCTHeader.Read self file pos).2.fmtVersion =
        (self.parseFields (streamRead file pos 20)).fmtVersion ∧
      (BCTHeader.Read self file pos).2.imgMips =
        (self.parseFields (streamRead file pos 20)).imgMips ∧
      (BCTHeader.Read self file pos).2.bitsPerPixel =
        (self.parseFields (streamRead file pos 20)).bitsPerPixel := by
  unfold BCTHeader.Read
  simp only [h20, ne_eq, not_true_eq_false, if_false]
  split_ifs <;> exact ⟨rfl, rfl, rfl, rfl, rfl, rfl, rfl, rfl⟩

/-- C11. For every file from which the 20-byte header can be read, with `raw`
the little-endian 32-bit reading of header bytes 16..19, `BCTHeader::Read`
sets `isBigEndian` exactly when `raw > 16777216`: a raw value of exactly
16777216 is classified little-endian and 16777217 big-endian. -/
theorem BCTHeader_Read_endianness (self : BCTHeader) (file : List Byte) (pos : Nat)
    (h20 : (streamRead file pos 20).length = 20) :
    let b := fun i : Nat => ((streamRead file pos 20).getD i 0).val
    let raw := b 16 + 2 ^ 8 * b 17 + 2 ^ 16 * b 18 + 2 ^ 24 * b 19
    ((BCTHeader.Read self file pos).2.isBigEndian = true ↔ raw > 16777216) ∧
    (raw = 16777216 → (BCTHeader.Read self file pos).2.isBigEndian = false) ∧
    (raw = 16777217 → (BCTHeader.Read self file pos).2.isBigEndian = true) := by
  intro b raw
  have hr := (Read_header_fields self file pos h20).1
  have hp := (parseFields_fields self (streamRead file pos 20)).1
  have key : (BCTHeader.Read self file pos).2.isBigEndian = decide (raw > 16777216) :=
    hr.trans hp
  refine ⟨?_, ?_, ?_⟩
  · rw [key]
    exact decide_eq_true_iff
  · intro h
    rw [key, h]
    decide
  · intro h
    rw [key, h]
    decide

/-- C12. For every file from which the 20-byte header `b 0 .. b 19` can be
read: when `BCTHeader::Read` classifies it little-endian the width is
`b4 + 256*b5`, the height `b6 + 256*b7` and the info-table offset
`b16 + 2^8*b17 + 2^16*b18 + 2^24*b19`; when it classifies it big-endian the
width is `256*b4 + b5`, the height `256*b6 + b7` and the info-table offset
`2^24*b16 + 2^16*b17 + 2^8*b18 + b19`; format id, format version, mip count
and bits-per-pixel are bytes 8, 9, 10 and 11 in both cases. -/
theorem BCTHeader_Read_fields (self : BCTHeader) (file : List Byte) (pos : Nat)
    (h20 : (streamRead file pos 20).length = 20) :
    let b := fun i : Nat => ((streamRead file pos 20).getD i 0).val
    let h := (BCTHeader.Read self file pos).2
    (h.isBigEndian = false →
      h.imgWidth = b 4 + 256 * b 5 ∧ h.imgHeight = b 6 + 256 * b 7 ∧
        h.imgInfoAddr = b 16 + 2 ^ 8 * b 17 + 2 ^ 16 * b 18 + 2 ^ 24 * b 19) ∧
    (h.isBigEndian = true →
      h.imgWidth = 256 * b 4 + b 5 ∧ h.imgHeight = 256 * b 6 + b 7 ∧
        h.imgInfoAddr = 2 ^ 24 * b 16 + 2 ^ 16 * b 17 + 2 ^ 8 * b 18 + b 19) ∧
    h.imgFormat = b 8 ∧ h.fmtVersion = b 9 ∧ h.imgMips = b 10 ∧ h.bitsPerPixel = b 11 := by
  intro b h
  obtain ⟨r1, r2, r3, r4, r5, r6, r7, r8⟩ := Read_header_fields self file pos h20
  obtain ⟨_, p2, p3, p4⟩ := parseFields_fields self (streamRead file pos 20)
  rw [← r1] at p2 p3 p4
  refine ⟨fun he => ?_, fun he => ?_, r5, r6, r7, r8⟩
  · have he' : (BCTHeader.Read self file pos).2.isBigEndian = false := he
    rw [he'] at p2 p3 p4
    exact ⟨r2.trans p2, r3.trans p3, r4.trans p4⟩
  · have he' : (BCTHeader.Read self file pos).2.isBigEndian = true := he
    rw [he'] at p2 p3 p4
    exact ⟨r2.trans p2, r3.trans p3, r4.trans p4⟩

/-- C11 at a concrete header whose bytes 16..19 are `1, 0, 0, 1` (raw value
16777217). -/
theorem BCTHeader_Read_endianness_witness :
    (streamRead ([7, 1, 2, 32, 0, 4, 0, 4, 8, 0, 1, 0, 0, 0, 0, 0, 1, 0, 0, 1] : List Byte)
      0 20).length = 20 ∧
    (BCTHeader.Read ⟨false, 0, 0, 0, 0, 0, 0, 0, 0, 0, 0, 0, 0, [], []⟩
      [7, 1, 2, 32, 0, 4, 0, 4, 8, 0, 1, 0, 0, 0, 0, 0, 1, 0, 0, 1] 0).2.isBigEndian = true :=
  ⟨by decide,
    (BCTHeader_Read_endianness ⟨false, 0, 0, 0, 0, 0, 0, 0, 0, 0, 0, 0, 0, [], []⟩
      [7, 1, 2, 32, 0, 4, 0, 4, 8, 0, 1, 0, 0, 0, 0, 0, 1, 0, 0, 1] 0 (by decide)).2.2
      (by decide)⟩

/-- C12 at a concrete little-endian header of width 4. -/
theorem BCTHeader_Read_fields_witness :
    (streamRead ([7, 1, 2, 32, 4, 0, 4, 0, 8, 0, 1, 0, 0, 0, 0, 0, 20, 0, 0, 0] : List Byte)
      0 20).length = 20 ∧
    (BCTHeader.Read ⟨false, 0, 0, 0, 0, 0, 0, 0, 0, 0, 0, 0, 0, [], []⟩
      [7, 1, 2, 32, 4, 0, 4, 0, 8, 0, 1, 0, 0, 0, 0, 0, 20, 0, 0, 0] 0).2.imgWidth = 4 :=
  ⟨by decide,
    (((BCTHeader_Read_fields ⟨false, 0, 0, 0, 0, 0, 0, 0, 0, 0, 0, 0, 0, [], []⟩
      [7, 1, 2, 32, 4, 0, 4, 0, 8, 0, 1, 0, 0, 0, 0, 0, 20, 0, 0, 0] 0 (by decide)).1
      (by decide)).1).trans (by decide)⟩

/-! ## C13, C14, C15: the mip entry and the payload -/

theorem streamRead_length (file : List Byte) (pos n : Nat) :
    (streamRead file pos n).length = min n (file.length - pos) := by
  simp [streamRead]

theorem streamRead_getD (file : List Byte) (pos n i : Nat) (hi : i < n) :
    (streamRead file pos n).getD i 0 = file.getD (pos + i) 0 := by
  simp [streamRead, List.getD_eq_getElem?_getD, List.getElem?_take, hi]

theorem streamRead_congr (f1 f2 : List Byte) (pos n : Nat) (hlen : f1.length = f2.length)
    (h : ∀ i, i < n → f1.getD (pos + i) 0 = f2.getD (pos + i) 0) :
    streamRead f1 pos n = streamRead f2 pos n := by
  apply List.ext_getElem
  · rw [streamRead_length, streamRead_length, hlen]
  · intro i h1 h2
    have hi : i < n := by
      rw [streamRead_length] at h1
      omega
    have e1 := streamRead_getD f1 pos n i hi
    have e2 := streamRead_getD f2 pos n i hi
    rw [List.getD_eq_getElem _ _ h1] at e1
    rw [List.getD_eq_getElem _ _ h2] at e2
    rw [e1, e2]
    exact h i hi

theorem Read_true_iff (self : BCTHeader) (file : List Byte) (pos : Nat) :
    (BCTHeader.Read self file pos).1 = true ↔
      (streamRead file pos 20).length = 20 ∧
      (self.parseFields (streamRead file pos 20)).imgWidth ≠ 0 ∧
      (self.parseFields (streamRead file pos 20)).imgHeight ≠ 0 ∧
      pos + (self.parseFields (streamRead file pos 20)).imgInfoAddr ≤ file.length ∧
      ((self.parseFields (streamRead file pos 20)).firstMip file pos).dataAddr ≠ 0 ∧
      ((self.parseFields (streamRead file pos 20)).firstMip file pos).dataSize ≠ 0 ∧
      pos + ((self.parseFields (streamRead file pos 20)).firstMip file pos).dataAddr +
        ((self.parseFields (streamRead file pos 20)).fixSize
          ((self.parseFields (streamRead file pos 20)).firstMip file pos)).dataSize
        ≤ file.length := by
  have hfix : ∀ (h : BCTHeader) (mip : dr3BctMip_t), (h.fixSize mip).dataAddr = mip.dataAddr := by
    intro h mip
    unfold BCTHeader.fixSize
    split_ifs <;> rfl
  unfold BCTHeader.Read
  simp only [hfix]
  split_ifs with h1 h2 h3 h4 h5 h6
  · simp [h1]
  · simp only [Bool.false_eq_true, false_iff]
    rintro ⟨_, a, b, _⟩
    rcases h2 with h2 | h2
    · exact a h2
    · exact b h2
  · simp only [Bool.false_eq_true, false_iff]
    rintro ⟨_, _, _, c, _⟩
    omega
  · simp only [Bool.false_eq_true, false_iff]
    rintro ⟨_, _, _, _, d, e, _⟩
    rcases h4 with h4 | h4
    · exact d h4
    · exact e h4
  · simp only [Bool.false_eq_true, false_iff]
    rintro ⟨_, _, _, _, _, _, f⟩
    omega
  · exfalso
    apply h6
    rw [streamRead_length]
    omega
  · simp only [true_iff]
    refine ⟨not_not.1 h1, fun e => h2 (Or.inl e), fun e => h2 (Or.inr e), by omega,
      fun e => h4 (Or.inl e), fun e => h4 (Or.inr e), by omega⟩

theorem firstMip_congr (h : BCTHeader) (f1 f2 : List Byte) (pos : Nat)
    (hlen : f1.length = f2.length)
    (hsame : ∀ i, i < pos + h.imgInfoAddr + 4 ∨ pos + h.imgInfoAddr + 8 ≤ i →
      f1.getD i 0 = f2.getD i 0) :
    (h.firstMip f1 pos).dataAddr = (h.firstMip f2 pos).dataAddr ∧
    (h.firstMip f1 pos).flags = (h.firstMip f2 pos).flags ∧
    (h.firstMip f1 pos).unk09 = (h.firstMip f2 pos).unk09 := by
  have hl : (streamRead f1 (pos + h.imgInfoAddr) 16).length =
      (streamRead f2 (pos + h.imgInfoAddr) 16).length := by
    rw [streamRead_length, streamRead_length, hlen]
  have hb : ∀ i, i < 16 → (i < 4 ∨ 8 ≤ i) →
      (streamRead f1 (pos + h.imgInfoAddr) 16).getD i 0 =
        (streamRead f2 (pos + h.imgInfoAddr) 16).getD i 0 := by
    intro i hi hw
    rw [streamRead_getD _ _ _ _ hi, streamRead_getD _ _ _ _ hi]
    apply hsame
    omega
  have w0 : hostWord (streamRead f1 (pos + h.imgInfoAddr) 16) 0 =
      hostWord (streamRead f2 (pos + h.imgInfoAddr) 16) 0 := by
    unfold hostWord
    rw [hb _ (by norm_num) (by norm_num), hb _ (by norm_num) (by norm_num),
      hb _ (by norm_num) (by norm_num), hb _ (by norm_num) (by norm_num)]
  have w2 : hostWord (streamRead f1 (pos + h.imgInfoAddr) 16) 2 =
      hostWord (streamRead f2 (pos + h.imgInfoAddr) 16) 2 := by
    unfold hostWord
    rw [hb _ (by norm_num) (by norm_num), hb _ (by norm_num) (by norm_num),
      hb _ (by norm_num) (by norm_num), hb _ (by norm_num) (by norm_num)]
  have w3 : hostWord (streamRead f1 (pos + h.imgInfoAddr) 16) 3 =
      hostWord (streamRead f2 (pos + h.imgInfoAddr) 16) 3 := by
    unfold hostWord
    rw [hb _ (by norm_num) (by norm_num), hb _ (by norm_num) (by norm_num),
      hb _ (by norm_num) (by norm_num), hb _ (by norm_num) (by norm_num)]
  unfold BCTHeader.firstMip dr3BctMip_t.Read
  simp only [hl, w0, w2, w3]
  split_ifs <;> exact ⟨rfl, rfl, rfl⟩

theorem fixSize_0A (h : BCTHeader) (m1 m2 : dr3BctMip_t) (hf : h.imgFormat = 0x0A)
    (ha : m1.dataAddr = m2.dataAddr) (hfl : m1.flags = m2.flags) (hu : m1.unk09 = m2.unk09) :
    h.fixSize m1 = h.fixSize m2 := by
  unfold BCTHeader.fixSize
  simp only [hf, if_true]
  cases m1
  cases m2
  simp only at ha hfl hu
  simp [ha, hfl, hu]

theorem Read_success_state (self : BCTHeader) (file : List Byte) (pos : Nat)
    (hok : (BCTHeader.Read self file pos).1 = true) :
    (BCTHeader.Read self file pos).2.imgInfo =
      [(self.parseFields (streamRead file pos 20)).fixSize
        ((self.parseFields (streamRead file pos 20)).firstMip file pos)] ∧
    (BCTHeader.Read self file pos).2.data =
      [streamRead file
        (pos + ((self.parseFields (streamRead file pos 20)).fixSize
          ((self.parseFields (streamRead file pos 20)).firstMip file pos)).dataAddr)
        ((self.parseFields (streamRead file pos 20)).fixSize
          ((self.parseFields (streamRead file pos 20)).firstMip file pos)).dataSize] ∧
    (streamRead file
        (pos + ((self.parseFields (streamRead file pos 20)).fixSize
          ((self.parseFields (streamRead file pos 20)).firstMip file pos)).dataAddr)
        ((self.parseFields (streamRead file pos 20)).fixSize
          ((self.parseFields (streamRead file pos 20)).firstMip file pos)).dataSize).length =
      ((self.parseFields (streamRead file pos 20)).fixSize
          ((self.parseFields (streamRead file pos 20)).firstMip file pos)).dataSize ∧
    pos + ((self.parseFields (streamRead file pos 20)).fixSize
          ((self.parseFields (streamRead file pos 20)).firstMip file pos)).dataAddr +
        ((self.parseFields (streamRead file pos 20)).fixSize
          ((self.parseFields (streamRead file pos 20)).firstMip file pos)).dataSize
      ≤ file.length := by
  unfold BCTHeader.Read at hok ⊢
  simp only at hok ⊢
  split_ifs at hok ⊢ with h1 h2 h3 h4 h5 h6
  have hlen := not_not.1 h6
  refine ⟨rfl, ?_, hlen, Nat.le_of_not_lt h5⟩
  simp only [hlen, Nat.sub_self, List.replicate_zero, List.append_nil]

/-- C13 (the code at a failing input). A 36-byte little-endian file of format
0x0A with width and height 65535, info table at 20, mip address 36 and declared
size 16: `BCTHeader::Read` returns true with stored mip size 0 and an empty
payload, while `ceil(w/4)*ceil(h/4)*16` is 4294967296, which the 32-bit size
field cannot hold. -/
theorem Read_0A_wraps :
    (BCTHeader.Read ⟨false, 0, 0, 0, 0, 0, 0, 0, 0, 0, 0, 0, 0, [], []⟩
      [7, 1, 2, 32, 255, 255, 255, 255, 10, 0, 1, 0, 0, 0, 0, 0, 20, 0, 0, 0,
        36, 0, 0, 0, 16, 0, 0, 0, 0, 0, 0, 0, 0, 0, 0, 0] 0).1 = true ∧
    (BCTHeader.Read ⟨false, 0, 0, 0, 0, 0, 0, 0, 0, 0, 0, 0, 0, [], []⟩
      [7, 1, 2, 32, 255, 255, 255, 255, 10, 0, 1, 0, 0, 0, 0, 0, 20, 0, 0, 0,
        36, 0, 0, 0, 16, 0, 0, 0, 0, 0, 0, 0, 0, 0, 0, 0] 0).2 =
      ⟨false, 7, 1, 2, 32, 65535, 65535, 10, 0, 1, 0, 0, 20, [⟨36, 0, 0, 0⟩], [[]]⟩ ∧
    ((65535 + 3) / 4) * ((65535 + 3) / 4) * 16 = 4294967296 := by
  refine ⟨by decide, by decide, by decide⟩

/-- C14 (counterexample). Two 52-byte files of format 0x0A, width and height 4,
that differ only in the declared-size field of the first mip entry (bytes
24..27): with declared size 0 `BCTHeader::Read` returns false, with declared
size 16 it returns true. -/
theorem Read_0A_declared_zero :
    ([7, 1, 2, 32, 4, 0, 4, 0, 10, 0, 1, 0, 0, 0, 0, 0, 20, 0, 0, 0,
        36, 0, 0, 0, 0, 0, 0, 0, 0, 0, 0, 0, 0, 0, 0, 0,
        1, 2, 3, 4, 5, 6, 7, 8, 9, 10, 11, 12, 13, 14, 15, 16] : List Byte).take 24 =
      ([7, 1, 2, 32, 4, 0, 4, 0, 10, 0, 1, 0, 0, 0, 0, 0, 20, 0, 0, 0,
        36, 0, 0, 0, 16, 0, 0, 0, 0, 0, 0, 0, 0, 0, 0, 0,
        1, 2, 3, 4, 5, 6, 7, 8, 9, 10, 11, 12, 13, 14, 15, 16] : List Byte).take 24 ∧
    ([7, 1, 2, 32, 4, 0, 4, 0, 10, 0, 1, 0, 0, 0, 0, 0, 20, 0, 0, 0,
        36, 0, 0, 0, 0, 0, 0, 0, 0, 0, 0, 0, 0, 0, 0, 0,
        1, 2, 3, 4, 5, 6, 7, 8, 9, 10, 11, 12, 13, 14, 15, 16] : List Byte).drop 28 =
      ([7, 1, 2, 32, 4, 0, 4, 0, 10, 0, 1, 0, 0, 0, 0, 0, 20, 0, 0, 0,
        36, 0, 0, 0, 16, 0, 0, 0, 0, 0, 0, 0, 0, 0, 0, 0,
        1, 2, 3, 4, 5, 6, 7, 8, 9, 10, 11, 12, 13, 14, 15, 16] : List Byte).drop 28 ∧
    (BCTHeader.Read ⟨false, 0, 0, 0, 0, 0, 0, 0, 0, 0, 0, 0, 0, [], []⟩
      [7, 1, 2, 32, 4, 0, 4, 0, 10, 0, 1, 0, 0, 0, 0, 0, 20, 0, 0, 0,
        36, 0, 0, 0, 0, 0, 0, 0, 0, 0, 0, 0, 0, 0, 0, 0,
        1, 2, 3, 4, 5, 6, 7, 8, 9, 10, 11, 12, 13, 14, 15, 16] 0).1 = false ∧
    (BCTHeader.Read ⟨false, 0, 0, 0, 0, 0, 0, 0, 0, 0, 0, 0, 0, [], []⟩
      [7, 1, 2, 32, 4, 0, 4, 0, 10, 0, 1, 0, 0, 0, 0, 0, 20, 0, 0, 0,
        36, 0, 0, 0, 16, 0, 0, 0, 0, 0, 0, 0, 0, 0, 0, 0,
        1, 2, 3, 4, 5, 6, 7, 8, 9, 10, 11, 12, 13, 14, 15, 16] 0).1 = true := by
  refine ⟨by decide, by decide, by decide, by decide⟩

/-- C14 (amended). For BCT format id 0x0A and any two files of the same length
that agree on every byte outside the 4-byte declared-size field of the first
mip entry, where that field lies past the 20-byte header and the declared size
is nonzero in both files: `BCTHeader::Read` returns the same success/failure
result and, on success, the same mip entry (so the same mip size); the payload
is the same when the payload's byte range does not meet the declared-size
field. -/
theorem Read_0A_declared_size_irrelevant (self : BCTHeader) (f1 f2 : List Byte) (pos : Nat)
    (hlen : f1.length = f2.length) :
    let h := self.parseFields (streamRead f1 pos 20)
    let field := pos + h.imgInfoAddr + 4
    let mip := h.fixSize (h.firstMip f1 pos)
    (∀ i, i < field ∨ field + 4 ≤ i → f1.getD i 0 = f2.getD i 0) →
    16 ≤ h.imgInfoAddr →
    h.imgFormat = 0x0A →
    (h.firstMip f1 pos).dataSize ≠ 0 →
    (h.firstMip f2 pos).dataSize ≠ 0 →
    (BCTHeader.Read self f1 pos).1 = (BCTHeader.Read self f2 pos).1 ∧
    ((BCTHeader.Read self f1 pos).1 = true →
      (BCTHeader.Read self f1 pos).2.imgInfo = (BCTHeader.Read self f2 pos).2.imgInfo ∧
      (pos + mip.dataAddr + mip.dataSize ≤ field ∨ field + 4 ≤ pos + mip.dataAddr →
        (BCTHeader.Read self f1 pos).2.data = (BCTHeader.Read self f2 pos).2.data)) := by
  intro h field mip hsame hA hfmt hnz1 hnz2
  have hbuf : streamRead f1 pos 20 = streamRead f2 pos 20 := by
    apply streamRead_congr _ _ _ _ hlen
    intro i hi
    apply hsame
    left
    show pos + i < pos + h.imgInfoAddr + 4
    omega
  have hsame' : ∀ i, i < pos + h.imgInfoAddr + 4 ∨ pos + h.imgInfoAddr + 8 ≤ i →
      f1.getD i 0 = f2.getD i 0 := fun i hi => hsame i hi
  obtain ⟨ca, cf, cu⟩ := firstMip_congr h f1 f2 pos hlen hsame'
  have hfix : h.fixSize (h.firstMip f1 pos) = h.fixSize (h.firstMip f2 pos) :=
    fixSize_0A h _ _ hfmt ca cf cu
  have hflag : (BCTHeader.Read self f1 pos).1 = (BCTHeader.Read self f2 pos).1 := by
    have i1 := Read_true_iff self f1 pos
    have i2 := Read_true_iff self f2 pos
    rw [← hbuf, ← hlen] at i2
    have hiff : (BCTHeader.Read self f1 pos).1 = true ↔ (BCTHeader.Read self f2 pos).1 = true := by
      rw [i1, i2]
      show _ ∧ _ ∧ _ ∧ _ ∧ (h.firstMip f1 pos).dataAddr ≠ 0 ∧ (h.firstMip f1 pos).dataSize ≠ 0 ∧
          pos + (h.firstMip f1 pos).dataAddr + (h.fixSize (h.firstMip f1 pos)).dataSize
            ≤ f1.length ↔
        _ ∧ _ ∧ _ ∧ _ ∧ (h.firstMip f2 pos).dataAddr ≠ 0 ∧ (h.firstMip f2 pos).dataSize ≠ 0 ∧
          pos + (h.firstMip f2 pos).dataAddr + (h.fixSize (h.firstMip f2 pos)).dataSize
            ≤ f1.length
      rw [← hfix, ← ca]
      simp only [hnz1, hnz2, ne_eq, not_false_eq_true, true_and]
    cases h1 : (BCTHeader.Read self f1 pos).1 <;> cases h2 : (BCTHeader.Read self f2 pos).1
    · rfl
    · exact absurd (hiff.2 h2) (by simp [h1])
    · exact absurd (hiff.1 h1) (by simp [h2])
    · rfl
  refine ⟨hflag, fun hok1 => ?_⟩
  have hok2 : (BCTHeader.Read self f2 pos).1 = true := hflag ▸ hok1
  obtain ⟨a1, b1, _, _⟩ := Read_success_state self f1 pos hok1
  obtain ⟨a2, b2, _, _⟩ := Read_success_state self f2 pos hok2
  rw [← hbuf] at a2 b2
  refine ⟨?_, fun hdis => ?_⟩
  · rw [a1, a2]
    exact congrArg (fun x => [x]) hfix
  · rw [b1, b2]
    have hfix' : h.fixSize (h.firstMip f2 pos) = mip := hfix.symm
    show [streamRead f1 (pos + mip.dataAddr) mip.dataSize] =
      [streamRead f2 (pos + (h.fixSize (h.firstMip f2 pos)).dataAddr)
        (h.fixSize (h.firstMip f2 pos)).dataSize]
    rw [hfix']
    congr 1
    apply streamRead_congr _ _ _ _ hlen
    intro i hi
    apply hsame
    rcases hdis with hd | hd
    · left
      omega
    · right
      omega

/-- C14 (amended) at two concrete 52-byte files whose declared sizes are 16 and
99. -/
theorem Read_0A_declared_size_irrelevant_witness :
    (BCTHeader.Read ⟨false, 0, 0, 0, 0, 0, 0, 0, 0, 0, 0, 0, 0, [], []⟩
      [7, 1, 2, 32, 4, 0, 4, 0, 10, 0, 1, 0, 0, 0, 0, 0, 20, 0, 0, 0,
        36, 0, 0, 0, 16, 0, 0, 0, 0, 0, 0, 0, 0, 0, 0, 0,
        1, 2, 3, 4, 5, 6, 7, 8, 9, 10, 11, 12, 13, 14, 15, 16] 0).1 =
    (BCTHeader.Read ⟨false, 0, 0, 0, 0, 0, 0, 0, 0, 0, 0, 0, 0, [], []⟩
      [7, 1, 2, 32, 4, 0, 4, 0, 10, 0, 1, 0, 0, 0, 0, 0, 20, 0, 0, 0,
        36, 0, 0, 0, 99, 0, 0, 0, 0, 0, 0, 0, 0, 0, 0, 0,
        1, 2, 3, 4, 5, 6, 7, 8, 9, 10, 11, 12, 13, 14, 15, 16] 0).1 :=
  (Read_0A_declared_size_irrelevant ⟨false, 0, 0, 0, 0, 0, 0, 0, 0, 0, 0, 0, 0, [], []⟩
    [7, 1, 2, 32, 4, 0, 4, 0, 10, 0, 1, 0, 0, 0, 0, 0, 20, 0, 0, 0,
      36, 0, 0, 0, 16, 0, 0, 0, 0, 0, 0, 0, 0, 0, 0, 0,
      1, 2, 3, 4, 5, 6, 7, 8, 9, 10, 11, 12, 13, 14, 15, 16]
    [7, 1, 2, 32, 4, 0, 4, 0, 10, 0, 1, 0, 0, 0, 0, 0, 20, 0, 0, 0,
      36, 0, 0, 0, 99, 0, 0, 0, 0, 0, 0, 0, 0, 0, 0, 0,
      1, 2, 3, 4, 5, 6, 7, 8, 9, 10, 11, 12, 13, 14, 15, 16] 0 (by decide)
    (by
      intro i hi
      by_cases h52 : i < 52
      · have hall : ∀ j, j < 52 → (j < 24 ∨ 28 ≤ j) →
            ([7, 1, 2, 32, 4, 0, 4, 0, 10, 0, 1, 0, 0, 0, 0, 0, 20, 0, 0, 0,
              36, 0, 0, 0, 16, 0, 0, 0, 0, 0, 0, 0, 0, 0, 0, 0,
              1, 2, 3, 4, 5, 6, 7, 8, 9, 10, 11, 12, 13, 14, 15, 16] : List Byte).getD j 0 =
            ([7, 1, 2, 32, 4, 0, 4, 0, 10, 0, 1, 0, 0, 0, 0, 0, 20, 0, 0, 0,
              36, 0, 0, 0, 99, 0, 0, 0, 0, 0, 0, 0, 0, 0, 0, 0,
              1, 2, 3, 4, 5, 6, 7, 8, 9, 10, 11, 12, 13, 14, 15, 16] : List Byte).getD j 0 := by
          decide
        exact hall i h52 hi
      · rw [List.getD_eq_default _ _ (by simpa using h52),
          List.getD_eq_default _ _ (by simpa using h52)])
    (by decide) (by decide) (by decide) (by decide)).1

/-- C15. Whenever `BCTHeader::Read` returns true, with `mip` the first mip entry
after the recomputation of its size for format 0x0A: the header holds that
entry, the payload it stores is the file's byte range
`[base + address, base + address + size)`, of length `size`, and the range lies
inside the file. -/
theorem BCTHeader_Read_payload (self : BCTHeader) (file : List Byte) (pos : Nat)
    (hok : (BCTHeader.Read self file pos).1 = true) :
    let h := self.parseFields (streamRead file pos 20)
    let mip := h.fixSize (h.firstMip file pos)
    let payload := (file.drop (pos + mip.dataAddr)).take mip.dataSize
    (BCTHeader.Read self file pos).2.imgInfo = [mip] ∧
    (BCTHeader.Read self file pos).2.data = [payload] ∧
    payload.length = mip.dataSize ∧
    pos + mip.dataAddr + mip.dataSize ≤ file.length ∧
    ∀ i, i < mip.dataSize → payload.getD i 0 = file.getD (pos + mip.dataAddr + i) 0 := by
  intro h mip payload
  obtain ⟨a, b, c, d⟩ := Read_success_state self file pos hok
  exact ⟨a, b, c, d, fun i hi => streamRead_getD file _ _ i hi⟩

/-- C15 at a concrete 44-byte file whose mip entry has address 36 and size 8. -/
theorem BCTHeader_Read_payload_witness :
    (BCTHeader.Read ⟨false, 0, 0, 0, 0, 0, 0, 0, 0, 0, 0, 0, 0, [], []⟩
      [7, 1, 2, 32, 4, 0, 4, 0, 8, 0, 1, 0, 0, 0, 0, 0, 20, 0, 0, 0,
        36, 0, 0, 0, 8, 0, 0, 0, 0, 0, 0, 0, 0, 0, 0, 0, 1, 2, 3, 4, 5, 6, 7, 8] 0).1 = true ∧
    (BCTHeader.Read ⟨false, 0, 0, 0, 0, 0, 0, 0, 0, 0, 0, 0, 0, [], []⟩
      [7, 1, 2, 32, 4, 0, 4, 0, 8, 0, 1, 0, 0, 0, 0, 0, 20, 0, 0, 0,
        36, 0, 0, 0, 8, 0, 0, 0, 0, 0, 0, 0, 0, 0, 0, 0, 1, 2, 3, 4, 5, 6, 7, 8] 0).2.data =
      [[1, 2, 3, 4, 5, 6, 7, 8]] :=
  ⟨by decide,
    ((BCTHeader_Read_payload ⟨false, 0, 0, 0, 0, 0, 0, 0, 0, 0, 0, 0, 0, [], []⟩
      [7, 1, 2, 32, 4, 0, 4, 0, 8, 0, 1, 0, 0, 0, 0, 0, 20, 0, 0, 0,
        36, 0, 0, 0, 8, 0, 0, 0, 0, 0, 0, 0, 0, 0, 0, 0, 1, 2, 3, 4, 5, 6, 7, 8] 0
      (by decide)).2.1).trans (by decide)⟩

/-! ## C16, C17, C18: the DDS header and loader -/

set_option maxRecDepth 100000

theorem hostWord_streamRead (stream : List Byte) (n j : Nat) (hj : 4 * j + 3 < n) :
    hostWord (streamRead stream 0 n) j =
      (stream.getD (4 * j) 0).val + 2 ^ 8 * (stream.getD (4 * j + 1) 0).val +
        2 ^ 16 * (stream.getD (4 * j + 2) 0).val + 2 ^ 24 * (stream.getD (4 * j + 3) 0).val := by
  unfold hostWord
  rw [streamRead_getD _ _ _ _ (by omega), streamRead_getD _ _ _ _ (by omega),
    streamRead_getD _ _ _ _ (by omega), streamRead_getD _ _ _ _ (by omega)]
  simp only [Nat.zero_add]

/-- C16. `DDSImage::ReadHeader` returns true if and only if 128 bytes can be
read, the little-endian word at offset 0 is `0x20534444` (the tag 'DDS '), the
word at offset 4 is 124, the word at offset 76 (the pixel-format size) is 32,
and the words at offset 16 (width) and offset 12 (height) are nonzero. -/
theorem ReadHeader_true_iff (stream : List Byte) :
    let word := fun k : Nat =>
      (stream.getD k 0).val + 2 ^ 8 * (stream.getD (k + 1) 0).val +
        2 ^ 16 * (stream.getD (k + 2) 0).val + 2 ^ 24 * (stream.getD (k + 3) 0).val
    (DDSImage.ReadHeader stream).1 = true ↔
      128 ≤ stream.length ∧ word 0 = 0x20534444 ∧ word 4 = 124 ∧ word 76 = 32 ∧
        word 16 ≠ 0 ∧ word 12 ≠ 0 := by
  intro word
  have hmagic : FOURCC_DDS = 0x20534444 := by decide
  have e0 : hostWord (streamRead stream 0 128) 0 = word 0 := hostWord_streamRead _ _ 0 (by norm_num)
  have e1 : hostWord (streamRead stream 0 128) 1 = word 4 := hostWord_streamRead _ _ 1 (by norm_num)
  have e3 : hostWord (streamRead stream 0 128) 3 = word 12 :=
    hostWord_streamRead _ _ 3 (by norm_num)
  have e4 : hostWord (streamRead stream 0 128) 4 = word 16 :=
    hostWord_streamRead _ _ 4 (by norm_num)
  have e19 : hostWord (streamRead stream 0 128) 19 = word 76 :=
    hostWord_streamRead _ _ 19 (by norm_num)
  have hl : (streamRead stream 0 128).length = 128 ↔ 128 ≤ stream.length := by
    rw [streamRead_length]
    omega
  unfold DDSImage.ReadHeader
  simp only [DDSHeader.ofBuffer, e0, e1, e3, e4, e19, hmagic]
  split_ifs with h1 h2
  · have : ¬ 128 ≤ stream.length := fun h => h1 (hl.2 h)
    simp [this]
  · simp only [Bool.false_eq_true, false_iff]
    rintro ⟨_, a, b, c, _⟩
    rcases h2 with h2 | h2 | h2
    · exact h2 a
    · exact h2 b
    · exact h2 c
  · have hlen : 128 ≤ stream.length := hl.1 (not_not.1 h1)
    have h2' := not_or.1 h2
    have h3' := not_or.1 h2'.2
    simp only [Bool.and_eq_true, decide_eq_true_eq]
    constructor
    · rintro ⟨a, b⟩
      exact ⟨hlen, not_not.1 h2'.1, not_not.1 h3'.1, not_not.1 h3'.2, a, b⟩
    · rintro ⟨_, _, _, _, a, b⟩
      exact ⟨a, b⟩

/-- C17 (the code at a failing input). A 128-byte DDS file: a valid header for a
4 x 4 DXT1 image and no payload.  `DDSImage::LoadFromFile` returns false (the
payload read is short), and afterwards `Data()` is not null and `Width()` is
4: the buffer allocated before decoding is kept. -/
theorem LoadFromFile_truncated_keeps_buffer :
    (DDSImage.LoadFromFile ⟨none, 0, 0, 0, ""⟩ (some
      [68, 68, 83, 32, 124, 0, 0, 0, 0, 0, 0, 0, 4, 0, 0, 0, 4, 0, 0, 0, 0, 0, 0, 0,
        0, 0, 0, 0, 0, 0, 0, 0, 0, 0, 0, 0, 0, 0, 0, 0, 0, 0, 0, 0, 0, 0, 0, 0,
        0, 0, 0, 0, 0, 0, 0, 0, 0, 0, 0, 0, 0, 0, 0, 0, 0, 0, 0, 0, 0, 0, 0, 0,
        0, 0, 0, 0, 32, 0, 0, 0, 0, 0, 0, 0, 68, 88, 84, 49, 0, 0, 0, 0,
        0, 0, 0, 0, 0, 0, 0, 0, 0, 0, 0, 0, 0, 0, 0, 0,
        0, 0, 0, 0, 0, 0, 0, 0, 0, 0, 0, 0, 0, 0, 0, 0, 0, 0, 0, 0])).1 = false ∧
    (DDSImage.LoadFromFile ⟨none, 0, 0, 0, ""⟩ (some
      [68, 68, 83, 32, 124, 0, 0, 0, 0, 0, 0, 0, 4, 0, 0, 0, 4, 0, 0, 0, 0, 0, 0, 0,
        0, 0, 0, 0, 0, 0, 0, 0, 0, 0, 0, 0, 0, 0, 0, 0, 0, 0, 0, 0, 0, 0, 0, 0,
        0, 0, 0, 0, 0, 0, 0, 0, 0, 0, 0, 0, 0, 0, 0, 0, 0, 0, 0, 0, 0, 0, 0, 0,
        0, 0, 0, 0, 32, 0, 0, 0, 0, 0, 0, 0, 68, 88, 84, 49, 0, 0, 0, 0,
        0, 0, 0, 0, 0, 0, 0, 0, 0, 0, 0, 0, 0, 0, 0, 0,
        0, 0, 0, 0, 0, 0, 0, 0, 0, 0, 0, 0, 0, 0, 0, 0, 0, 0, 0, 0])).2.hasData = true ∧
    (DDSImage.LoadFromFile ⟨none, 0, 0, 0, ""⟩ (some
      [68, 68, 83, 32, 124, 0, 0, 0, 0, 0, 0, 0, 4, 0, 0, 0, 4, 0, 0, 0, 0, 0, 0, 0,
        0, 0, 0, 0, 0, 0, 0, 0, 0, 0, 0, 0, 0, 0, 0, 0, 0, 0, 0, 0, 0, 0, 0, 0,
        0, 0, 0, 0, 0, 0, 0, 0, 0, 0, 0, 0, 0, 0, 0, 0, 0, 0, 0, 0, 0, 0, 0, 0,
        0, 0, 0, 0, 32, 0, 0, 0, 0, 0, 0, 0, 68, 88, 84, 49, 0, 0, 0, 0,
        0, 0, 0, 0, 0, 0, 0, 0, 0, 0, 0, 0, 0, 0, 0, 0,
        0, 0, 0, 0, 0, 0, 0, 0, 0, 0, 0, 0, 0, 0, 0, 0, 0, 0, 0, 0])).2.Width = 4 := by
  refine ⟨by decide, by decide, by decide⟩

/-- C18 (the code at a failing input). A 132-byte DDS file whose header has
width and height `0xFFFFFFFF`, no compression tag and 32 bits per pixel,
followed by 4 payload bytes: `ReadHeader` accepts it with width 4294967295, and
`LoadFromFile` returns true with `Width()` and `Height()` equal to -1 and a
pixel buffer of 4 bytes (`m_pitch` is -4, and `size_t(m_pitch) * m_h` is 4
modulo `2^64`). -/
theorem LoadFromFile_dimensions_wrap :
    (DDSImage.ReadHeader
      [68, 68, 83, 32, 124, 0, 0, 0, 0, 0, 0, 0, 255, 255, 255, 255, 255, 255, 255, 255,
        0, 0, 0, 0, 0, 0, 0, 0, 0, 0, 0, 0, 0, 0, 0, 0, 0, 0, 0, 0, 0, 0, 0, 0, 0, 0, 0, 0,
        0, 0, 0, 0, 0, 0, 0, 0, 0, 0, 0, 0, 0, 0, 0, 0, 0, 0, 0, 0, 0, 0, 0, 0,
        0, 0, 0, 0, 32, 0, 0, 0, 0, 0, 0, 0, 0, 0, 0, 0, 32, 0, 0, 0,
        0, 0, 0, 0, 0, 0, 0, 0, 0, 0, 0, 0, 0, 0, 0, 0,
        0, 0, 0, 0, 0, 0, 0, 0, 0, 0, 0, 0, 0, 0, 0, 0, 0, 0, 0, 0, 1, 2, 3, 4]).1 = true ∧
    (DDSImage.ReadHeader
      [68, 68, 83, 32, 124, 0, 0, 0, 0, 0, 0, 0, 255, 255, 255, 255, 255, 255, 255, 255,
        0, 0, 0, 0, 0, 0, 0, 0, 0, 0, 0, 0, 0, 0, 0, 0, 0, 0, 0, 0, 0, 0, 0, 0, 0, 0, 0, 0,
        0, 0, 0, 0, 0, 0, 0, 0, 0, 0, 0, 0, 0, 0, 0, 0, 0, 0, 0, 0, 0, 0, 0, 0,
        0, 0, 0, 0, 32, 0, 0, 0, 0, 0, 0, 0, 0, 0, 0, 0, 32, 0, 0, 0,
        0, 0, 0, 0, 0, 0, 0, 0, 0, 0, 0, 0, 0, 0, 0, 0,
        0, 0, 0, 0, 0, 0, 0, 0, 0, 0, 0, 0, 0, 0, 0, 0, 0, 0, 0, 0, 1, 2, 3, 4]).2.width =
      4294967295 ∧
    (fun r : Bool × DDSImage =>
        (r.1, r.2.Width, r.2.Height, r.2.m_pitch, r.2.m_pixels.map fun p => p.size))
      (DDSImage.LoadFromFile ⟨none, 0, 0, 0, ""⟩ (some
        [68, 68, 83, 32, 124, 0, 0, 0, 0, 0, 0, 0, 255, 255, 255, 255, 255, 255, 255, 255,
          0, 0, 0, 0, 0, 0, 0, 0, 0, 0, 0, 0, 0, 0, 0, 0, 0, 0, 0, 0, 0, 0, 0, 0, 0, 0, 0, 0,
          0, 0, 0, 0, 0, 0, 0, 0, 0, 0, 0, 0, 0, 0, 0, 0, 0, 0, 0, 0, 0, 0, 0, 0,
          0, 0, 0, 0, 32, 0, 0, 0, 0, 0, 0, 0, 0, 0, 0, 0, 32, 0, 0, 0,
          0, 0, 0, 0, 0, 0, 0, 0, 0, 0, 0, 0, 0, 0, 0, 0,
          0, 0, 0, 0, 0, 0, 0, 0, 0, 0, 0, 0, 0, 0, 0, 0, 0, 0, 0, 0, 1, 2, 3, 4])) =
      (true, -1, -1, -4, some 4) := by
  refine ⟨by decide, by decide, by decide⟩

/-! ## C19, C20: the BCT loader -/

/-- C19 (the code at a failing input). A little-endian 1 x 1 BCT file with the
unsupported format id 0x99 and a payload of 1024 palette bytes of value 9
followed by the index byte 0: `BCTImage::LoadFromFile` returns true,
`m_format` is 0 and the pixel is `9, 9, 9, 9`, decoded through the 8-bit
palette path.  With format id 0x27 and a 4-byte payload it returns true as
well, `m_format` is 95 and no byte of the fresh buffer is written. -/
theorem LoadFromFile_unknown_format :
    (BCTImage.LoadFromFile ⟨none, 0, 0, 0, 0, ⟨false, 0, 0, 0, 0, 0, 0, 0, 0, 0, 0, 0, 0, [], []⟩⟩
      (some ([7, 1, 2, 32, 1, 0, 1, 0, 0x99, 0, 1, 0, 0, 0, 0, 0, 20, 0, 0, 0,
        36, 0, 0, 0, 1, 4, 0, 0, 0, 0, 0, 0, 0, 0, 0, 0] ++ List.replicate 1024 9 ++ [0]))
      (fun _ => 0) (fun _ => 0)).map
        (fun r => (r.1, r.2.m_format,
          (List.range 4).map fun i => r.2.m_pixels.map fun p => p.mem i)) =
      some (true, 0, [some 9, some 9, some 9, some 9]) ∧
    (BCTImage.LoadFromFile ⟨none, 0, 0, 0, 0, ⟨false, 0, 0, 0, 0, 0, 0, 0, 0, 0, 0, 0, 0, [], []⟩⟩
      (some [7, 1, 2, 32, 1, 0, 1, 0, 0x27, 0, 1, 0, 0, 0, 0, 0, 20, 0, 0, 0,
        36, 0, 0, 0, 4, 0, 0, 0, 0, 0, 0, 0, 0, 0, 0, 0, 1, 2, 3, 4])
      (fun _ => 0) (fun _ => 0)).map
        (fun r => (r.1, r.2.m_format,
          (List.range 4).map fun i => r.2.m_pixels.map fun p => p.mem i)) =
      some (true, 95, [some 0, some 0, some 0, some 0]) := by
  refine ⟨by decide, by decide⟩

theorem LoadFromFile_rejected_state (self : BCTImage) (content : List Byte) (fresh : Surface)
    (junk : BytePtr) (hrej : (BCTHeader.Read self.m_header content 0).1 = false) :
    (BCTImage.LoadFromFile self (some content) fresh junk).map
        (fun r => (r.1, r.2.hasData, r.2.Width, r.2.Height)) = some (false, false, 0, 0) := by
  unfold BCTImage.LoadFromFile
  simp only [BCTImage.Free, hrej, if_true]
  rfl

/-- C20. Whatever the `BCTImage` held before: whenever `BCTHeader::Read` rejects
the file, and in particular when the first mip entry's address plus its size
exceeds the file length, `BCTImage::LoadFromFile` returns false and afterwards
`Data()` is null and `Width()` and `Height()` are 0. -/
theorem BCTImage_LoadFromFile_rejected (self : BCTImage) (content : List Byte) (fresh : Surface)
    (junk : BytePtr) :
    let h := self.m_header.parseFields (streamRead content 0 20)
    let mip := h.fixSize (h.firstMip content 0)
    ((BCTHeader.Read self.m_header content 0).1 = false →
      (BCTImage.LoadFromFile self (some content) fresh junk).map
        (fun r => (r.1, r.2.hasData, r.2.Width, r.2.Height)) = some (false, false, 0, 0)) ∧
    (mip.dataAddr + mip.dataSize > content.length →
      (BCTImage.LoadFromFile self (some content) fresh junk).map
        (fun r => (r.1, r.2.hasData, r.2.Width, r.2.Height)) = some (false, false, 0, 0)) := by
  intro h mip
  refine ⟨LoadFromFile_rejected_state self content fresh junk, fun hbig => ?_⟩
  apply LoadFromFile_rejected_state
  cases hr : (BCTHeader.Read self.m_header content 0).1
  · rfl
  · exfalso
    have hle := ((Read_true_iff self.m_header content 0).1 hr).2.2.2.2.2.2
    have ha : mip.dataAddr = (h.firstMip content 0).dataAddr := fixSize_dataAddr _ _
    have hle' : 0 + (h.firstMip content 0).dataAddr + mip.dataSize ≤ content.length := hle
    omega

/-- C20 at a concrete image that holds a 2 x 2 surface and a 43-byte file whose
mip entry declares address 36 and size 8. -/
theorem BCTImage_LoadFromFile_rejected_witness :
    (BCTHeader.Read ⟨false, 0, 0, 0, 0, 0, 0, 0, 0, 0, 0, 0, 0, [], []⟩
      [7, 1, 2, 32, 4, 0, 4, 0, 8, 0, 1, 0, 0, 0, 0, 0, 20, 0, 0, 0,
        36, 0, 0, 0, 8, 0, 0, 0, 0, 0, 0, 0, 0, 0, 0, 0, 1, 2, 3, 4, 5, 6, 7] 0).1 = false ∧
    (BCTImage.LoadFromFile
      ⟨some ⟨16, fun _ => 5⟩, 2, 2, 8, 28,
        ⟨false, 0, 0, 0, 0, 0, 0, 0, 0, 0, 0, 0, 0, [], []⟩⟩
      (some [7, 1, 2, 32, 4, 0, 4, 0, 8, 0, 1, 0, 0, 0, 0, 0, 20, 0, 0, 0,
        36, 0, 0, 0, 8, 0, 0, 0, 0, 0, 0, 0, 0, 0, 0, 0, 1, 2, 3, 4, 5, 6, 7])
      (fun _ => 0) (fun _ => 0)).map
        (fun r => (r.1, r.2.hasData, r.2.Width, r.2.Height)) = some (false, false, 0, 0) :=
  ⟨by decide,
    (BCTImage_LoadFromFile_rejected
      ⟨some ⟨16, fun _ => 5⟩, 2, 2, 8, 28,
        ⟨false, 0, 0, 0, 0, 0, 0, 0, 0, 0, 0, 0, 0, [], []⟩⟩
      [7, 1, 2, 32, 4, 0, 4, 0, 8, 0, 1, 0, 0, 0, 0, 0, 20, 0, 0, 0,
        36, 0, 0, 0, 8, 0, 0, 0, 0, 0, 0, 0, 0, 0, 0, 0, 1, 2, 3, 4, 5, 6, 7]
      (fun _ => 0) (fun _ => 0)).1 (by decide)⟩

/-! ## C21: the header object after a rejected read -/

/-- C21 (the claim as stated fails). On a zero-initialised header object and a
20-byte little-endian file with width 0, height 4 and format id 8,
`BCTHeader::Read` returns false and the header object holds the signature,
height, format id, mip count and info-table offset parsed from the rejected
file: it is not left as it was. -/
theorem Read_false_keeps_parsed :
    (BCTHeader.Read ⟨false, 0, 0, 0, 0, 0, 0, 0, 0, 0, 0, 0, 0, [], []⟩
      [7, 1, 2, 32, 0, 0, 4, 0, 8, 0, 1, 0, 0, 0, 0, 0, 20, 0, 0, 0] 0).1 = false ∧
    (BCTHeader.Read ⟨false, 0, 0, 0, 0, 0, 0, 0, 0, 0, 0, 0, 0, [], []⟩
      [7, 1, 2, 32, 0, 0, 4, 0, 8, 0, 1, 0, 0, 0, 0, 0, 20, 0, 0, 0] 0).2 =
      ⟨false, 7, 1, 2, 32, 0, 4, 8, 0, 1, 0, 0, 20, [], []⟩ ∧
    (BCTHeader.Read ⟨false, 0, 0, 0, 0, 0, 0, 0, 0, 0, 0, 0, 0, [], []⟩
      [7, 1, 2, 32, 0, 0, 4, 0, 8, 0, 1, 0, 0, 0, 0, 0, 20, 0, 0, 0] 0).2 ≠
      ⟨false, 0, 0, 0, 0, 0, 0, 0, 0, 0, 0, 0, 0, [], []⟩ := by
  refine ⟨by decide, by decide, by decide⟩

/-- C21, amended. Whenever `BCTHeader::Read` returns false: if fewer than 20
header bytes could be read, the header object is left exactly as it was;
otherwise it holds the fields parsed from the 20 bytes (signature, width,
height, format id, version, mip count, bits per pixel, hash, info-table
offset, endianness flag), and its mip table and payload are the previous ones
when the rejection is at the dimension test or at the info-offset test, the
one mip entry as `dr3BctMip_t::Read` leaves it (all zero when its 16 bytes
could not be read) and an empty payload when the rejection is at the test of
the entry's address and size, and otherwise (the rejection is then at the
payload-range test) that one mip entry, with the recomputed size for format
0x0A, and an empty payload. -/
theorem BCTHeader_Read_false_state (self : BCTHeader) (file : List Byte) (pos : Nat)
    (hrej : (BCTHeader.Read self file pos).1 = false) :
    let buffer := streamRead file pos 20
    let h := self.parseFields buffer
    let mip := h.firstMip file pos
    (h.imgInfo = self.imgInfo ∧ h.data = self.data) ∧
    (buffer.length ≠ 20 → (BCTHeader.Read self file pos).2 = self) ∧
    (buffer.length = 20 →
      (h.imgWidth = 0 ∨ h.imgHeight = 0 ∨ pos + h.imgInfoAddr > file.length) →
      (BCTHeader.Read self file pos).2 = h) ∧
    (buffer.length = 20 → h.imgWidth ≠ 0 → h.imgHeight ≠ 0 →
      pos + h.imgInfoAddr ≤ file.length → (mip.dataAddr = 0 ∨ mip.dataSize = 0) →
      (BCTHeader.Read self file pos).2 = { h with imgInfo := [mip], data := [] }) ∧
    (buffer.length = 20 → h.imgWidth ≠ 0 → h.imgHeight ≠ 0 →
      pos + h.imgInfoAddr ≤ file.length → mip.dataAddr ≠ 0 → mip.dataSize ≠ 0 →
      pos + mip.dataAddr + (h.fixSize mip).dataSize > file.length ∧
      (BCTHeader.Read self file pos).2 = { h with imgInfo := [h.fixSize mip], data := [] }) := by
  intro buffer h mip
  refine ⟨⟨rfl, rfl⟩, ?_, ?_, ?_, ?_⟩
  · intro hlen
    unfold BCTHeader.Read
    simp only
    rw [if_pos hlen]
  · intro hlen hbad
    unfold BCTHeader.Read
    simp only
    rw [if_neg (not_not.2 hlen)]
    by_cases hd : h.imgWidth = 0 ∨ h.imgHeight = 0
    · rw [if_pos hd]
    · rw [if_neg hd]
      rcases hbad with hb | hb | hb
      · exact absurd (Or.inl hb) hd
      · exact absurd (Or.inr hb) hd
      · rw [if_pos hb]
  · intro hlen hw hh hinfo hmip
    unfold BCTHeader.Read
    simp only
    rw [if_neg (not_not.2 hlen), if_neg (by rintro (h0 | h0); exact hw h0; exact hh h0),
      if_neg (Nat.not_lt.2 hinfo), if_pos hmip]
  · intro hlen hw hh hinfo ha hs
    have hfix : (h.fixSize mip).dataAddr = mip.dataAddr := fixSize_dataAddr h mip
    unfold BCTHeader.Read at hrej ⊢
    simp only at hrej ⊢
    rw [if_neg (not_not.2 hlen), if_neg (by rintro (h0 | h0); exact hw h0; exact hh h0),
      if_neg (Nat.not_lt.2 hinfo), if_neg (by rintro (h0 | h0); exact ha h0; exact hs h0)]
      at hrej ⊢
    split_ifs at hrej ⊢ with h5 h6
    · refine ⟨?_, rfl⟩
      rw [← hfix]
      exact h5
    · exfalso
      apply h6
      rw [streamRead_length]
      omega

/-- C21, amended, on a header object that holds a mip table and a payload from
before: a 43-byte file rejected at the payload-range test (the entry declares
address 36 and size 8) leaves the parsed fields, the entry read and an empty
payload. -/
theorem BCTHeader_Read_false_state_witness :
    (BCTHeader.Read ⟨false, 0, 0, 0, 0, 0, 0, 0, 0, 0, 0, 0, 0, [⟨1, 2, 3, 4⟩], [[5]]⟩
      [7, 1, 2, 32, 4, 0, 4, 0, 8, 0, 1, 0, 0, 0, 0, 0, 20, 0, 0, 0,
        36, 0, 0, 0, 8, 0, 0, 0, 0, 0, 0, 0, 0, 0, 0, 0, 1, 2, 3, 4, 5, 6, 7] 0).1 = false ∧
    (BCTHeader.Read ⟨false, 0, 0, 0, 0, 0, 0, 0, 0, 0, 0, 0, 0, [⟨1, 2, 3, 4⟩], [[5]]⟩
      [7, 1, 2, 32, 4, 0, 4, 0, 8, 0, 1, 0, 0, 0, 0, 0, 20, 0, 0, 0,
        36, 0, 0, 0, 8, 0, 0, 0, 0, 0, 0, 0, 0, 0, 0, 0, 1, 2, 3, 4, 5, 6, 7] 0).2 =
      ⟨false, 7, 1, 2, 32, 4, 4, 8, 0, 1, 0, 0, 20, [⟨36, 8, 0, 0⟩], []⟩ :=
  ⟨by decide,
    ((BCTHeader_Read_false_state ⟨false, 0, 0, 0, 0, 0, 0, 0, 0, 0, 0, 0, 0, [⟨1, 2, 3, 4⟩], [[5]]⟩
      [7, 1, 2, 32, 4, 0, 4, 0, 8, 0, 1, 0, 0, 0, 0, 0, 20, 0, 0, 0,
        36, 0, 0, 0, 8, 0, 0, 0, 0, 0, 0, 0, 0, 0, 0, 0, 1, 2, 3, 4, 5, 6, 7] 0 (by decide)).2.2.2.2
        (by decide) (by decide) (by decide) (by decide) (by decide) (by decide)).2.trans
      (by decide)⟩

/-! ## C22, C23: the Xbox 360 address functions on grids of at most 16 blocks across -/

theorem NextPowerOf2_small (w : Nat) (hw : w ≤ 16) : NextPowerOf2 w >>> 5 = 0 := by
  interval_cases w <;> decide

theorem XGAddress2DTiledX_small (blockOffset w pitch : Nat) (hw : w ≤ 16) :
    XGAddress2DTiledX blockOffset w pitch = none := by
  unfold XGAddress2DTiledX
  simp only [NextPowerOf2_small w hw, if_true]

theorem XGAddress2DTiledY_small (blockOffset w h pitch : Nat) (hw : w ≤ 16) :
    XGAddress2DTiledY blockOffset w h pitch = none := by
  unfold XGAddress2DTiledY
  simp only [NextPowerOf2_small w hw, if_true]

theorem xboxCopyBlock_small (data : List Byte) (w h pitch : Nat) (dest : List Byte)
    (blockOffset : Nat) (hw : w ≤ 16) : xboxCopyBlock data w h pitch dest blockOffset = none := by
  unfold xboxCopyBlock
  rw [XGAddress2DTiledX_small _ _ _ hw]

theorem foldlM_range_none {β : Type} (f : β → Nat → Option β) (n : Nat) (hn : 0 < n)
    (h0 : ∀ b, f b 0 = none) (init : β) : (List.range n).foldlM f init = none := by
  obtain ⟨k, rfl⟩ := Nat.exists_eq_succ_of_ne_zero (Nat.pos_iff_ne_zero.1 hn)
  rw [List.range_succ_eq_map, List.foldlM_cons, h0]
  rfl

theorem untile_traps (data : List Byte) (pw ph pitch : Nat)
    (hw : (pw + 4 + 2 ^ 32 - 1) % 2 ^ 32 / 4 ≤ 16)
    (hn : 0 < NextPowerOf2 ((pw + 4 + 2 ^ 32 - 1) % 2 ^ 32 / 4) *
      NextPowerOf2 ((ph + 4 + 2 ^ 32 - 1) % 2 ^ 32 / 4) % 2 ^ 32) :
    Xbox360ConvertToLinearTexture data pw ph pitch 4 = none := by
  unfold Xbox360ConvertToLinearTexture
  simp only
  apply foldlM_range_none
  · exact hn
  · intro b
    exact xboxCopyBlock_small _ _ _ _ _ _ hw

/-- C22 (the code at a failing input). On the 8 x 8 block grid that the claim
names, `NextPowerOf2(8) >> 5` is 0, so `XGAddress2DTiledX` takes a remainder
by zero and `XGAddress2DTiledY` divides by zero at every block offset and for
both block sizes, and `Xbox360ConvertToLinearTexture` on a 32 x 32 pixel
surface (8 x 8 blocks) does so at its first block, whatever the input buffer:
no address map and no un-swizzled buffer is produced. -/
theorem XGAddress2DTiled_grid8_traps :
    NextPowerOf2 8 >>> 5 = 0 ∧
    (∀ blockOffset texelBytePitch : Nat,
      XGAddress2DTiledX blockOffset 8 texelBytePitch = none ∧
      XGAddress2DTiledY blockOffset 8 8 texelBytePitch = none) ∧
    ∀ data : List Byte,
      Xbox360ConvertToLinearTexture data 32 32 8 4 = none ∧
      Xbox360ConvertToLinearTexture data 32 32 16 4 = none :=
  ⟨by decide,
    fun _ _ => ⟨XGAddress2DTiledX_small _ _ _ (by norm_num),
      XGAddress2DTiledY_small _ _ _ _ (by norm_num)⟩,
    fun data => ⟨untile_traps data 32 32 8 (by decide) (by decide),
      untile_traps data 32 32 16 (by decide) (by decide)⟩⟩

/-- C23 (the code at a failing input). For every input buffer,
`Xbox360ConvertToLinearTexture` on a 4 x 4 pixel surface (one block) and on a
64 x 64 pixel surface (16 x 16 blocks), with block size 8 or 16, divides by
zero in the address functions at its first block: it returns no buffer. -/
theorem Xbox360ConvertToLinearTexture_small_traps (data : List Byte) :
    Xbox360ConvertToLinearTexture data 4 4 8 4 = none ∧
    Xbox360ConvertToLinearTexture data 4 4 16 4 = none ∧
    Xbox360ConvertToLinearTexture data 64 64 8 4 = none ∧
    Xbox360ConvertToLinearTexture data 64 64 16 4 = none :=
  ⟨untile_traps data 4 4 8 (by decide) (by decide),
    untile_traps data 4 4 16 (by decide) (by decide),
    untile_traps data 64 64 8 (by decide) (by decide),
    untile_traps data 64 64 16 (by decide) (by decide)⟩

/-! ## C25, C26: palette slot 3 and equal endpoints in BC1 -/

/-- C25 (the code at a failing input). For the BC1 block `00 00 FF FF FF FF FF FF`
(`c0 = 0 < c1 = 0xFFFF`, index word `0xFFFFFFFF`) and pitch 16,
`DDSImage::DecodeDXT1Block` writes 16 pixels `(127, 127, 127, 0)`: the colour
bytes are the average of the two endpoints, not 0.  The same block through
`BCTImage::DecodeDXT1Block` gives 16 pixels `(0, 0, 0, 0)`. -/
theorem DDS_DecodeDXT1Block_slot3 :
    endpoint0 (BytePtr.ofList [0, 0, 255, 255, 255, 255, 255, 255]) <
      endpoint1 (BytePtr.ofList [0, 0, 255, 255, 255, 255, 255, 255]) ∧
    indexWord (BytePtr.ofList [0, 0, 255, 255, 255, 255, 255, 255]) = 0xFFFFFFFF ∧
    (List.range 64).map
        (applyStores (fun _ => 9)
          (DDSImage.DecodeDXT1Block 16 (BytePtr.ofList [0, 0, 255, 255, 255, 255, 255, 255]) 0 0)) =
      (List.range 16).flatMap (fun _ => [127, 127, 127, 0]) ∧
    (List.range 64).map
        (applyStores (fun _ => 9)
          (BCTImage.DecodeDXT1Block 16 (BytePtr.ofList [0, 0, 255, 255, 255, 255, 255, 255]) 0 0)) =
      (List.range 16).flatMap (fun _ => [0, 0, 0, 0]) := by
  refine ⟨by decide, by decide, by decide, by decide⟩

theorem BCT_clr_of_eq (s : BytePtr) (heq : endpoint0 s = endpoint1 s) :
    BCTImage.DecodeDXT1Block_clr s =
      [[(Expand565 (endpoint0 s)).2.2, (Expand565 (endpoint0 s)).2.1,
          (Expand565 (endpoint0 s)).1, 255],
        [(Expand565 (endpoint0 s)).2.2, (Expand565 (endpoint0 s)).2.1,
          (Expand565 (endpoint0 s)).1, 255],
        [(Expand565 (endpoint0 s)).2.2, (Expand565 (endpoint0 s)).2.1,
          (Expand565 (endpoint0 s)).1, 255],
        [0, 0, 0, 0]] := by
  have hl : ∀ a : Nat, a ≤ 255 → lerpByte a a 0 = a := by
    intro a ha
    rw [lerpByte_zero a a ha ha, Nat.shiftRight_eq_div_pow]
    omega
  have hr : (Expand565 (endpoint0 s)).1 ≤ 255 := by
    rw [Expand565_eq]; simp only; omega
  have hg : (Expand565 (endpoint0 s)).2.1 ≤ 255 := by
    rw [Expand565_eq]; simp only; omega
  have hb : (Expand565 (endpoint0 s)).2.2 ≤ 255 := by
    rw [Expand565_eq]; simp only; omega
  unfold BCTImage.DecodeDXT1Block_clr
  simp only [← heq, gt_iff_lt, lt_self_iff_false, decide_False, Bool.false_eq_true, if_false,
    hl _ hr, hl _ hg, hl _ hb]

theorem getD_three_one (col zero : List Nat) (sel : Nat) (hs : sel < 4) :
    ([col, col, col, zero] : List (List Nat)).getD sel [] = if sel = 3 then zero else col := by
  interval_cases sel <;> rfl

/-- C26 (the claim as stated fails). For the BC1 block `FF FF FF FF 03 00 00 00`
(`c0 = c1 = 0xFFFF`, texel 0 selects palette slot 3) and pitch 16,
`BCTImage::DecodeDXT1Block` writes `(0, 0, 0, 0)` to texel 0 and
`(255, 255, 255, 255)` to texel 1: the 16 pixels are not identical and not all
of alpha 255. -/
theorem BCT_DecodeDXT1Block_equal_endpoints_slot3 :
    endpoint0 (BytePtr.ofList [255, 255, 255, 255, 3, 0, 0, 0]) =
      endpoint1 (BytePtr.ofList [255, 255, 255, 255, 3, 0, 0, 0]) ∧
    (List.range 8).map
        (applyStores (fun _ => 9)
          (BCTImage.DecodeDXT1Block 16 (BytePtr.ofList [255, 255, 255, 255, 3, 0, 0, 0]) 0 0)) =
      [0, 0, 0, 0, 255, 255, 255, 255] := by
  refine ⟨by decide, by decide⟩

/-- C26, amended. For every 8-byte BC1 block whose two endpoint words are equal
(`c0 == c1`, which the decoder treats as the three-colour mode since
`c0 > c1` fails) and for every value of the index word: palette slots 0, 1
and 2 of `BCTImage::DecodeDXT1Block` are the 5:6:5 expansion of that colour
with alpha 255 and slot 3 is `(0, 0, 0, 0)`; so every texel whose two index
bits are not 3 is written as that expansion with alpha 255, and every texel
whose index bits are 3 is written as `(0, 0, 0, 0)`. -/
theorem BCT_DecodeDXT1Block_equal_endpoints (s : BytePtr) (pitch bx by_ : Nat) (px py : Fin 4) :
    let c0 := (s 0).val + 256 * (s 1).val
    let c1 := (s 2).val + 256 * (s 3).val
    let idx := (s 4).val + 2 ^ 8 * (s 5).val + 2 ^ 16 * (s 6).val + 2 ^ 24 * (s 7).val
    let colour := [(Expand565 c0).2.2, (Expand565 c0).2.1, (Expand565 c0).1, 255]
    c0 = c1 →
    BCTImage.DecodeDXT1Block_clr s = [colour, colour, colour, [0, 0, 0, 0]] ∧
    storePixel ((4 * by_ + py.val) * pitch + (4 * bx + px.val) * 4)
        (if (idx >>> (2 * (4 * py.val + px.val))) &&& 3 = 3 then [0, 0, 0, 0] else colour)
      <:+: BCTImage.DecodeDXT1Block pitch s bx by_ := by
  intro c0 c1 idx colour heq
  have heq' : endpoint0 s = endpoint1 s := by rw [endpoint0_eq, endpoint1_eq]; exact heq
  have hclr : BCTImage.DecodeDXT1Block_clr s = [colour, colour, colour, [0, 0, 0, 0]] := by
    rw [BCT_clr_of_eq s heq', endpoint0_eq]
  refine ⟨hclr, ?_⟩
  have hsel : (idx >>> (2 * (4 * py.val + px.val))) &&& 3 < 4 := by
    have := Nat.and_pow_two_sub_one_eq_mod (idx >>> (2 * (4 * py.val + px.val))) 2
    have h3 : (2 : Nat) ^ 2 - 1 = 3 := by norm_num
    rw [h3] at this
    rw [this]
    exact Nat.mod_lt _ (by norm_num)
  rw [← getD_three_one colour [0, 0, 0, 0] _ hsel, ← hclr, BCTImage.DecodeDXT1Block,
    dxt1Loop_eq_reference, indexWord_eq]
  exact reference_contains _ _ _ _ _ px py

/-- C26, amended, at the block `FF FF FF FF 03 00 00 00`, pitch 16, block
`(0, 0)` and texel `(0, 0)`. -/
theorem BCT_DecodeDXT1Block_equal_endpoints_witness :
    (255 + 256 * 255 = 255 + 256 * 255) ∧
    BCTImage.DecodeDXT1Block_clr (BytePtr.ofList [255, 255, 255, 255, 3, 0, 0, 0]) =
      [[255, 255, 255, 255], [255, 255, 255, 255], [255, 255, 255, 255], [0, 0, 0, 0]] ∧
    storePixel 0 [0, 0, 0, 0] <:+:
      BCTImage.DecodeDXT1Block 16 (BytePtr.ofList [255, 255, 255, 255, 3, 0, 0, 0]) 0 0 :=
  ⟨rfl,
    (BCT_DecodeDXT1Block_equal_endpoints (BytePtr.ofList [255, 255, 255, 255, 3, 0, 0, 0])
      16 0 0 0 0 rfl).1.trans (by decide),
    (by decide : storePixel 0 [0, 0, 0, 0] = storePixel ((4 * 0 + (0 : Fin 4).val) * 16 + (4 * 0 + (0 : Fin 4).val) * 4) [0, 0, 0, 0]) ▸
    (BCT_DecodeDXT1Block_equal_endpoints (BytePtr.ofList [255, 255, 255, 255, 3, 0, 0, 0])
      16 0 0 0 0 rfl).2⟩

/-! ## C27: the expansion tables and `Expand565` -/

/-- C27. The 5-bit table holds `(v<<3)|(v>>2)` for every `v` in `0..31` and the
6-bit table holds `(v<<2)|(v>>4)` for every `v` in `0..63`; both tables are
non-decreasing, map 0 to 0 and the largest input (31, 63) to 255; and for every
colour word `c`, `Expand565` returns red from bits 11-15 through the 5-bit
table, green from bits 5-10 through the 6-bit table and blue from bits 0-4
through the 5-bit table. -/
theorem Tables_expansion :
    Tables.r5 = (List.range 32).map (fun v => (v <<< 3) ||| (v >>> 2)) ∧
    Tables.g6 = (List.range 64).map (fun v => (v <<< 2) ||| (v >>> 4)) ∧
    Tables.r5.Pairwise (fun a b => a ≤ b) ∧ Tables.g6.Pairwise (fun a b => a ≤ b) ∧
    Tables.r5.getD 0 0 = 0 ∧ Tables.r5.getD 31 0 = 255 ∧
    Tables.g6.getD 0 0 = 0 ∧ Tables.g6.getD 63 0 = 255 ∧
    ∀ c : Nat, Expand565 c =
      (Tables.r5.getD (c / 2 ^ 11 % 2 ^ 5) 0, Tables.g6.getD (c / 2 ^ 5 % 2 ^ 6) 0,
        Tables.r5.getD (c % 2 ^ 5) 0) := by
  refine ⟨by decide, by decide, by decide, by decide, by decide, by decide, by decide, by decide, ?_⟩
  intro c
  have h5 : ∀ x : Nat, x &&& 0x1F = x % 2 ^ 5 := fun x => Nat.and_pow_two_sub_one_eq_mod x 5
  have h6 : ∀ x : Nat, x &&& 0x3F = x % 2 ^ 6 := fun x => Nat.and_pow_two_sub_one_eq_mod x 6
  simp only [Expand565, h5, h6, Nat.shiftRight_eq_div_pow]

/-! ## C30: the format name -/

/-- C30 (the code at failing inputs). After a successful load of a 4 x 4 file of
format id 0x08, `m_format` is 71, the decode orchestrator decodes the block
with `DecodeDXT1Block`, and `GetFormat` reports "DXT3"; after a successful
load of a 1 x 1 file of the uncompressed format id 0x00, `m_format` is 28 and
`GetFormat` reports "DXT1". -/
theorem GetFormat_names :
    (BCTImage.LoadFromFile
      ⟨none, 0, 0, 0, 0, ⟨false, 0, 0, 0, 0, 0, 0, 0, 0, 0, 0, 0, 0, [], []⟩⟩
      (some [7, 1, 2, 32, 4, 0, 4, 0, 8, 0, 1, 0, 0, 0, 0, 0, 20, 0, 0, 0,
        36, 0, 0, 0, 8, 0, 0, 0, 0, 0, 0, 0, 0, 0, 0, 0, 0, 0, 255, 255, 0, 0, 0, 0])
      (fun _ => 0) (fun _ => 0)).map
        (fun r => (r.1, r.2.m_format, r.2.GetFormat)) = some (true, 71, "DXT3") ∧
    BCTImage.DecodeToBGRA 16 71
        ⟨false, 7, 1, 2, 32, 4, 4, 8, 0, 1, 0, 0, 20, [⟨36, 8, 0, 0⟩],
          [[0, 0, 255, 255, 0, 0, 0, 0]]⟩ (fun _ => 0) =
      some (BCTImage.DecodeDXT1Block 16 (BytePtr.ofList [0, 0, 255, 255, 0, 0, 0, 0]) 0 0) ∧
    (BCTImage.LoadFromFile
      ⟨none, 0, 0, 0, 0, ⟨false, 0, 0, 0, 0, 0, 0, 0, 0, 0, 0, 0, 0, [], []⟩⟩
      (some [7, 1, 2, 32, 1, 0, 1, 0, 0, 0, 1, 0, 0, 0, 0, 0, 20, 0, 0, 0,
        36, 0, 0, 0, 4, 0, 0, 0, 0, 0, 0, 0, 0, 0, 0, 0, 1, 2, 3, 4])
      (fun _ => 0) (fun _ => 0)).map
        (fun r => (r.1, r.2.m_format, r.2.GetFormat)) = some (true, 28, "DXT1") := by
  refine ⟨by decide, by decide, by decide⟩

/-! ## C31: `NextPowerOf2` -/

theorem smear_step (x y m : Nat)
    (h : ∀ i, y.testBit i = true ↔ ∃ j, j < m ∧ x.testBit (i + j) = true) (i : Nat) :
    (y ||| (y >>> m)).testBit i = true ↔ ∃ j, j < 2 * m ∧ x.testBit (i + j) = true := by
  rw [Nat.testBit_or, Nat.testBit_shiftRight, Bool.or_eq_true, h, h]
  constructor
  · rintro (⟨j, hj, hb⟩ | ⟨j, hj, hb⟩)
    · exact ⟨j, by omega, hb⟩
    · refine ⟨m + j, by omega, ?_⟩
      have e : i + (m + j) = m + i + j := by omega
      rw [e]; exact hb
  · rintro ⟨j, hj, hb⟩
    by_cases hjm : j < m
    · exact Or.inl ⟨j, hjm, hb⟩
    · refine Or.inr ⟨j - m, by omega, ?_⟩
      have e : m + i + (j - m) = i + j := by omega
      rw [e]; exact hb

theorem smear_eq (x k y : Nat) (hk : x.testBit k = true)
    (hhi : ∀ j, k < j → x.testBit j = false) (hk32 : k < 32)
    (hy : ∀ i, y.testBit i = true ↔ ∃ j, j < 32 ∧ x.testBit (i + j) = true) :
    y = 2 ^ (k + 1) - 1 := by
  apply Nat.eq_of_testBit_eq
  intro i
  rw [Nat.testBit_two_pow_sub_one]
  by_cases hi : i < k + 1
  · rw [decide_eq_true hi]
    refine (hy i).2 ⟨k - i, by omega, ?_⟩
    have e : i + (k - i) = k := by omega
    rw [e]; exact hk
  · rw [decide_eq_false hi]
    apply Bool.eq_false_iff.2
    intro h
    obtain ⟨j, _, hb⟩ := (hy i).1 h
    rw [hhi (i + j) (by omega)] at hb
    cases hb

theorem NextPowerOf2_of_range (v k : Nat) (h1 : 2 ^ k < v) (h2 : v ≤ 2 ^ (k + 1))
    (hk : k < 32) : NextPowerOf2 v = 2 ^ (k + 1) % 2 ^ 32 := by
  have hv0 : v ≠ 0 := by
    have := Nat.two_pow_pos k
    omega
  have hpow : (2 : Nat) ^ (k + 1) ≤ 2 ^ 32 := Nat.pow_le_pow_right (by norm_num) (by omega)
  have hkpos : 0 < 2 ^ k := Nat.two_pow_pos k
  have hx1 : 2 ^ k ≤ v - 1 := by omega
  have hx2 : v - 1 < 2 ^ (k + 1) := by omega
  have hmod : (v - 1) % 2 ^ 32 = v - 1 := Nat.mod_eq_of_lt (by omega)
  have hbit : (v - 1).testBit k = true := by
    rw [Nat.testBit_to_div_mod]
    have : (v - 1) / 2 ^ k = 1 := by
      apply Nat.div_eq_of_lt_le
      · omega
      · rw [pow_succ] at hx2; omega
    rw [this]
    rfl
  have hhi : ∀ j, k < j → (v - 1).testBit j = false := by
    intro j hj
    apply Nat.testBit_lt_two_pow
    calc v - 1 < 2 ^ (k + 1) := hx2
      _ ≤ 2 ^ j := Nat.pow_le_pow_right (by norm_num) hj
  have h0 : ∀ i, (v - 1).testBit i = true ↔ ∃ j, j < 1 ∧ (v - 1).testBit (i + j) = true := by
    intro i
    constructor
    · intro h; exact ⟨0, by norm_num, h⟩
    · rintro ⟨j, hj, hb⟩
      have : j = 0 := by omega
      subst this
      exact hb
  have s1 := smear_step (v - 1) _ 1 h0
  have s2 := smear_step (v - 1) _ 2 s1
  have s3 := smear_step (v - 1) _ 4 s2
  have s4 := smear_step (v - 1) _ 8 s3
  have s5 := smear_step (v - 1) _ 16 s4
  have hs := smear_eq (v - 1) k _ hbit hhi hk s5
  unfold NextPowerOf2
  rw [if_neg hv0]
  simp only [hmod]
  rw [hs]
  have : 2 ^ (k + 1) - 1 + 1 = 2 ^ (k + 1) := by
    have := Nat.two_pow_pos (k + 1)
    omega
  rw [this]

/-- C31 (the claim as stated fails). The 32-bit value `2^31 + 1 = 2147483649`
is mapped by `NextPowerOf2` to 0, which is no power of two. -/
theorem NextPowerOf2_past_half :
    2147483649 < 2 ^ 32 ∧ NextPowerOf2 2147483649 = 0 ∧
    ¬ ∃ k : Nat, NextPowerOf2 2147483649 = 2 ^ k := by
  have h : NextPowerOf2 2147483649 = 0 := by decide
  refine ⟨by norm_num, h, ?_⟩
  rintro ⟨k, hk⟩
  rw [h] at hk
  have := Nat.two_pow_pos k
  omega

/-- C31, amended. For every 32-bit unsigned `v`: `NextPowerOf2(v)` is 1 when
`v = 0`; when `0 < v <= 2^31` it is the smallest power of two that is `>= v`;
and when `v > 2^31` it is 0 (the sum `value + 1` wraps in the `uint32_t`). -/
theorem NextPowerOf2_spec (v : Nat) (hv : v < 2 ^ 32) :
    (v = 0 → NextPowerOf2 v = 1) ∧
    (0 < v → v ≤ 2 ^ 31 →
      ∃ k : Nat, NextPowerOf2 v = 2 ^ k ∧ v ≤ 2 ^ k ∧ ∀ j : Nat, v ≤ 2 ^ j → 2 ^ k ≤ 2 ^ j) ∧
    (2 ^ 31 < v → NextPowerOf2 v = 0) := by
  refine ⟨?_, ?_, ?_⟩
  · rintro rfl
    rfl
  · intro hpos hle
    by_cases h1 : v = 1
    · subst h1
      refine ⟨0, by decide, by norm_num, ?_⟩
      intro j _
      exact Nat.pow_le_pow_right (by norm_num) (Nat.zero_le j)
    · have hx : v - 1 ≠ 0 := by omega
      have hlo : 2 ^ Nat.log2 (v - 1) ≤ v - 1 := Nat.log2_self_le hx
      have hup : v - 1 < 2 ^ (Nat.log2 (v - 1) + 1) := Nat.lt_log2_self
      have hk : Nat.log2 (v - 1) < 31 := by
        by_contra hc
        have : (2 : Nat) ^ 31 ≤ 2 ^ Nat.log2 (v - 1) :=
          Nat.pow_le_pow_right (by norm_num) (by omega)
        omega
      have hr := NextPowerOf2_of_range v (Nat.log2 (v - 1)) (by omega) (by omega) (by omega)
      have hlt : (2 : Nat) ^ (Nat.log2 (v - 1) + 1) < 2 ^ 32 :=
        Nat.pow_lt_pow_right (by norm_num) (by omega)
      rw [Nat.mod_eq_of_lt hlt] at hr
      refine ⟨Nat.log2 (v - 1) + 1, hr, by omega, ?_⟩
      intro j hj
      apply Nat.pow_le_pow_right (by norm_num)
      by_contra hc
      have : (2 : Nat) ^ j ≤ 2 ^ Nat.log2 (v - 1) :=
        Nat.pow_le_pow_right (by norm_num) (by omega)
      omega
  · intro hgt
    have hr := NextPowerOf2_of_range v 31 hgt (by omega) (by norm_num)
    rw [hr]
    norm_num

/-- C31, amended, at `v = 5`. -/
theorem NextPowerOf2_spec_witness :
    5 < 2 ^ 32 ∧
    ((5 = 0 → NextPowerOf2 5 = 1) ∧
    (0 < 5 → 5 ≤ 2 ^ 31 →
      ∃ k : Nat, NextPowerOf2 5 = 2 ^ k ∧ 5 ≤ 2 ^ k ∧ ∀ j : Nat, 5 ≤ 2 ^ j → 2 ^ k ≤ 2 ^ j) ∧
    (2 ^ 31 < 5 → NextPowerOf2 5 = 0)) :=
  ⟨by norm_num, NextPowerOf2_spec 5 (by norm_num)⟩

/-! ## C32: the divisor of the address functions -/

/-- C32 (the code at failing inputs). For every grid width of 0 to 16 blocks the
divisor `NextPowerOf2(widthInBlocks) >> 5` is 0, and `XGAddress2DTiledX` and
`XGAddress2DTiledY` take the remainder, respectively the quotient, by it at
every block offset, grid height and block size. -/
theorem XGAddress2DTiled_divisor_zero :
    ∀ w : Fin 17, NextPowerOf2 w.val >>> 5 = 0 ∧
      ∀ blockOffset heightInBlocks texelBytePitch : Nat,
        XGAddress2DTiledX blockOffset w.val texelBytePitch = none ∧
        XGAddress2DTiledY blockOffset w.val heightInBlocks texelBytePitch = none :=
  fun w => ⟨NextPowerOf2_small w.val (by omega),
    fun _ _ _ => ⟨XGAddress2DTiledX_small _ _ _ (by omega),
      XGAddress2DTiledY_small _ _ _ _ (by omega)⟩⟩

/-! ## C33, C34, C35: the block path of the BCT decode orchestrator -/

/-- C33 (the code at a failing input). A 44-byte little-endian file of format id
0x08, 1 x 1 pixel, with one 8-byte block: `LoadFromFile` returns true with a
surface of 4 bytes, and `DecodeToBGRA` makes 64 stores, 60 of them at offsets
of 4 or more, the largest at offset 27. -/
theorem BCT_DecodeToBGRA_1x1_overrun :
    (BCTImage.LoadFromFile
      ⟨none, 0, 0, 0, 0, ⟨false, 0, 0, 0, 0, 0, 0, 0, 0, 0, 0, 0, 0, [], []⟩⟩
      (some [7, 1, 2, 32, 1, 0, 1, 0, 8, 0, 1, 0, 0, 0, 0, 0, 20, 0, 0, 0,
        36, 0, 0, 0, 8, 0, 0, 0, 0, 0, 0, 0, 0, 0, 0, 0, 255, 255, 0, 0, 0, 0, 0, 0])
      (fun _ => 0) (fun _ => 0)).map
        (fun r => (r.1, r.2.m_pitch, r.2.m_format, r.2.m_pixels.map fun p => p.size)) =
      some (true, 4, 71, some 4) ∧
    (BCTImage.DecodeToBGRA 4 71
        ⟨false, 7, 1, 2, 32, 1, 1, 8, 0, 1, 0, 0, 20, [⟨36, 8, 0, 0⟩],
          [[255, 255, 0, 0, 0, 0, 0, 0]]⟩ (fun _ => 0)).map
        (fun st => (st.length, (st.filter fun s => decide (1 * 1 * 4 ≤ s.1)).length,
          (st.map Prod.fst).foldl max 0)) = some (64, 60, 27) := by
  refine ⟨by decide, by decide⟩

/-- C34 (the code at a failing input). A 37-byte little-endian file of format id
0x08, 4 x 4 pixels, whose mip entry declares address 36 and size 1:
`LoadFromFile` returns true, the stored payload is the one byte `9`, and the
decode loop reads the offsets 0 to 7 of it. -/
theorem BCT_short_payload_accepted :
    (BCTImage.LoadFromFile
      ⟨none, 0, 0, 0, 0, ⟨false, 0, 0, 0, 0, 0, 0, 0, 0, 0, 0, 0, 0, [], []⟩⟩
      (some [7, 1, 2, 32, 4, 0, 4, 0, 8, 0, 1, 0, 0, 0, 0, 0, 20, 0, 0, 0,
        36, 0, 0, 0, 1, 0, 0, 0, 0, 0, 0, 0, 0, 0, 0, 0, 9])
      (fun _ => 0) (fun _ => 0)).map
        (fun r => (r.1, r.2.m_format, r.2.m_header.isBigEndian)) = some (true, 71, false) ∧
    (BCTImage.LoadFromFile
      ⟨none, 0, 0, 0, 0, ⟨false, 0, 0, 0, 0, 0, 0, 0, 0, 0, 0, 0, 0, [], []⟩⟩
      (some [7, 1, 2, 32, 4, 0, 4, 0, 8, 0, 1, 0, 0, 0, 0, 0, 20, 0, 0, 0,
        36, 0, 0, 0, 1, 0, 0, 0, 0, 0, 0, 0, 0, 0, 0, 0, 9])
      (fun _ => 0) (fun _ => 0)).map
        (fun r => r.2.m_header.data) = some [[9]] ∧
    (BCTImage.LoadFromFile
      ⟨none, 0, 0, 0, 0, ⟨false, 0, 0, 0, 0, 0, 0, 0, 0, 0, 0, 0, 0, [], []⟩⟩
      (some [7, 1, 2, 32, 4, 0, 4, 0, 8, 0, 1, 0, 0, 0, 0, 0, 20, 0, 0, 0,
        36, 0, 0, 0, 1, 0, 0, 0, 0, 0, 0, 0, 0, 0, 0, 0, 9])
      (fun _ => 0) (fun _ => 0)).map
        (fun r => BCTImage.DecodeToBGRA_offsets r.2.m_format r.2.m_header) =
      some [0, 1, 2, 3, 4, 5, 6, 7] := by
  refine ⟨by decide, by decide, by decide⟩

/-- C35 (the code at a failing input). For a little-endian image of format id
0x26 (`m_format` 0x53, BC5), 8 x 4 pixels, whatever the payload and the
previous content of `block`: `DecodeToBGRA` decodes block 0 from the 8 bytes
at payload offset `0 * 8` and block 1 from the 8 bytes at payload offset
`1 * 8`, the upper 8 bytes of `block` being what the array held before.  On
the payload whose two 16-byte blocks decode to `(10, 20)` and `(30, 40)`
everywhere, pixel `(0, 0)` ends as `10, 0, 127, 255` and pixel `(4, 0)` as
`20, 0, 127, 255`. -/
theorem BCT_DecodeToBGRA_ATI2_stride :
    (∀ (payload : List Byte) (junk : BytePtr),
      BCTImage.DecodeToBGRA 32 0x53
          ⟨false, 7, 1, 2, 32, 8, 4, 38, 0, 1, 0, 0, 20, [⟨36, 32, 0, 0⟩], [payload]⟩ junk =
        some (BCTImage.DecodeATI2Block 32
            (copyBlock ((BytePtr.ofList payload).advance (0 * 8)) 8 junk) 0 0 ++
          BCTImage.DecodeATI2Block 32
            (copyBlock ((BytePtr.ofList payload).advance (1 * 8)) 8 junk) 1 0)) ∧
    mapBctToDxgi 0x26 = 0x53 ∧
    (BCTImage.DecodeToBGRA 32 0x53
        ⟨false, 7, 1, 2, 32, 8, 4, 38, 0, 1, 0, 0, 20, [⟨36, 32, 0, 0⟩],
          [[10, 10, 0, 0, 0, 0, 0, 0, 20, 20, 0, 0, 0, 0, 0, 0,
            30, 30, 0, 0, 0, 0, 0, 0, 40, 40, 0, 0, 0, 0, 0, 0]]⟩ (fun _ => 0)).map
      (fun st => ((List.range 4).map (applyStores (fun _ => 9) st),
        (List.range' 16 4).map (applyStores (fun _ => 9) st))) =
      some ([10, 0, 127, 255], [20, 0, 127, 255]) := by
  refine ⟨fun payload junk => ?_, by decide, by decide⟩
  simp [BCTImage.DecodeToBGRA, bctBlockGrid, bctBlockRow]

/-! ## C36, C37: the two BC1 decoders on one block; the surface of a BC4 image -/

/-- C36 (the code at a failing input). For the BC1 block `FF FF 00 00 FF FF FF FF`
(`c0 = 0xFFFF > c1 = 0`, every texel selects palette slot 3) and pitch 16,
`DDSImage::DecodeDXT1Block` writes 16 pixels `(127, 127, 127, 255)` and
`BCTImage::DecodeDXT1Block` writes 16 pixels `(85, 85, 85, 255)`. -/
theorem DecodeDXT1Block_opaque_differs :
    endpoint0 (BytePtr.ofList [255, 255, 0, 0, 255, 255, 255, 255]) >
      endpoint1 (BytePtr.ofList [255, 255, 0, 0, 255, 255, 255, 255]) ∧
    (List.range 64).map
        (applyStores (fun _ => 9)
          (DDSImage.DecodeDXT1Block 16 (BytePtr.ofList [255, 255, 0, 0, 255, 255, 255, 255]) 0 0)) =
      (List.range 16).flatMap (fun _ => [127, 127, 127, 255]) ∧
    (List.range 64).map
        (applyStores (fun _ => 9)
          (BCTImage.DecodeDXT1Block 16 (BytePtr.ofList [255, 255, 0, 0, 255, 255, 255, 255]) 0 0)) =
      (List.range 16).flatMap (fun _ => [85, 85, 85, 255]) := by
  refine ⟨by decide, by decide, by decide⟩

/-- C37 (the code at a failing input). A 44-byte little-endian file of format id
0x25 (BC4), 4 x 4 pixels: loaded over a fresh buffer of zeros the first two
pixels end as `0, 0, 0, 200`, and loaded over a fresh buffer of 77s they end
as `77, 77, 77, 200`. -/
theorem LoadFromFile_ATI1_depends_on_buffer :
    (BCTImage.LoadFromFile
      ⟨none, 0, 0, 0, 0, ⟨false, 0, 0, 0, 0, 0, 0, 0, 0, 0, 0, 0, 0, [], []⟩⟩
      (some [7, 1, 2, 32, 4, 0, 4, 0, 37, 0, 1, 0, 0, 0, 0, 0, 20, 0, 0, 0,
        36, 0, 0, 0, 8, 0, 0, 0, 0, 0, 0, 0, 0, 0, 0, 0, 200, 50, 0, 0, 0, 0, 0, 0])
      (fun _ => 0) (fun _ => 0)).map
        (fun r => (r.1, r.2.m_format,
          r.2.m_pixels.map fun p => (List.range 8).map p.mem)) =
      some (true, 80, some [0, 0, 0, 200, 0, 0, 0, 200]) ∧
    (BCTImage.LoadFromFile
      ⟨none, 0, 0, 0, 0, ⟨false, 0, 0, 0, 0, 0, 0, 0, 0, 0, 0, 0, 0, [], []⟩⟩
      (some [7, 1, 2, 32, 4, 0, 4, 0, 37, 0, 1, 0, 0, 0, 0, 0, 20, 0, 0, 0,
        36, 0, 0, 0, 8, 0, 0, 0, 0, 0, 0, 0, 0, 0, 0, 0, 200, 50, 0, 0, 0, 0, 0, 0])
      (fun _ => 77) (fun _ => 0)).map
        (fun r => (r.1, r.2.m_format,
          r.2.m_pixels.map fun p => (List.range 8).map p.mem)) =
      some (true, 80, some [77, 77, 77, 200, 77, 77, 77, 200]) := by
  refine ⟨by decide, by decide⟩

/-! ## C38: the mip entry of an accepted file -/

theorem streamRead_full (file : List Byte) (pos n : Nat) (h : (streamRead file pos n).length = n)
    (hn : 0 < n) : pos + n ≤ file.length := by
  simp only [streamRead, List.length_take, List.length_drop] at h
  omega

/-- C38. Whenever `BCTHeader::Read` returns true, the whole 16-byte mip entry
lies inside the file: base position + info-table offset + 16 is at most the
file length. -/
theorem BCTHeader_Read_mip_entry_inside (self : BCTHeader) (file : List Byte) (pos : Nat)
    (hok : (BCTHeader.Read self file pos).1 = true) :
    pos + (BCTHeader.Read self file pos).2.imgInfoAddr + 16 ≤ file.length := by
  have hiff := (Read_true_iff self file pos).1 hok
  have haddr : (BCTHeader.Read self file pos).2.imgInfoAddr =
      (self.parseFields (streamRead file pos 20)).imgInfoAddr := by
    unfold BCTHeader.Read at hok ⊢
    simp only at hok ⊢
    split_ifs at hok ⊢
    rfl
  rw [haddr]
  have hne := hiff.2.2.2.2.1
  by_contra hc
  apply hne
  have hshort : (streamRead file (pos + (self.parseFields (streamRead file pos 20)).imgInfoAddr)
      16).length ≠ 16 := by
    intro h16
    exact hc (streamRead_full _ _ _ h16 (by norm_num))
  simp only [BCTHeader.firstMip, dr3BctMip_t.Read, hshort, ne_eq, not_false_eq_true, if_true]

/-- C38 at a concrete 44-byte file with the info table at offset 20. -/
theorem BCTHeader_Read_mip_entry_inside_witness :
    (BCTHeader.Read ⟨false, 0, 0, 0, 0, 0, 0, 0, 0, 0, 0, 0, 0, [], []⟩
      [7, 1, 2, 32, 4, 0, 4, 0, 8, 0, 1, 0, 0, 0, 0, 0, 20, 0, 0, 0,
        36, 0, 0, 0, 8, 0, 0, 0, 0, 0, 0, 0, 0, 0, 0, 0, 1, 2, 3, 4, 5, 6, 7, 8] 0).1 = true ∧
    0 + (BCTHeader.Read ⟨false, 0, 0, 0, 0, 0, 0, 0, 0, 0, 0, 0, 0, [], []⟩
      [7, 1, 2, 32, 4, 0, 4, 0, 8, 0, 1, 0, 0, 0, 0, 0, 20, 0, 0, 0,
        36, 0, 0, 0, 8, 0, 0, 0, 0, 0, 0, 0, 0, 0, 0, 0, 1, 2, 3, 4, 5, 6, 7, 8] 0).2.imgInfoAddr
        + 16 ≤
      ([7, 1, 2, 32, 4, 0, 4, 0, 8, 0, 1, 0, 0, 0, 0, 0, 20, 0, 0, 0,
        36, 0, 0, 0, 8, 0, 0, 0, 0, 0, 0, 0, 0, 0, 0, 0, 1, 2, 3, 4, 5, 6, 7, 8] :
          List Byte).length :=
  ⟨by decide,
    BCTHeader_Read_mip_entry_inside ⟨false, 0, 0, 0, 0, 0, 0, 0, 0, 0, 0, 0, 0, [], []⟩
      [7, 1, 2, 32, 4, 0, 4, 0, 8, 0, 1, 0, 0, 0, 0, 0, 20, 0, 0, 0,
        36, 0, 0, 0, 8, 0, 0, 0, 0, 0, 0, 0, 0, 0, 0, 0, 1, 2, 3, 4, 5, 6, 7, 8] 0 (by decide)⟩

/-! ## C39: the order of the DXT5 alpha palette -/

/-- C39. For every pair of alpha endpoints with `a0 > a1`, the palette `lut` of
`DecodeDXT5Block` (the same in both classes) has `lut[0] = a0`, `lut[1] = a1`
and `a0 >= lut[2] >= lut[3] >= ... >= lut[7] >= a1`; every one of these seven
steps is strict whenever `a0 - a1 >= 7`; and for `a0 = 200`, `a1 = 50` the
slots 2..7 are 178, 157, 135, 114, 92, 71. -/
theorem DXT5_lut_decreasing (a0 a1 : Byte) (h : a0.val > a1.val) :
    let lut := DecodeDXT5Block_lut a0.val a1.val
    (lut.getD 0 0 = a0.val ∧ lut.getD 1 0 = a1.val) ∧
    (a0.val ≥ lut.getD 2 0 ∧ lut.getD 2 0 ≥ lut.getD 3 0 ∧ lut.getD 3 0 ≥ lut.getD 4 0 ∧
      lut.getD 4 0 ≥ lut.getD 5 0 ∧ lut.getD 5 0 ≥ lut.getD 6 0 ∧ lut.getD 6 0 ≥ lut.getD 7 0 ∧
      lut.getD 7 0 ≥ a1.val) ∧
    (a0.val - a1.val ≥ 7 →
      a0.val > lut.getD 2 0 ∧ lut.getD 2 0 > lut.getD 3 0 ∧ lut.getD 3 0 > lut.getD 4 0 ∧
      lut.getD 4 0 > lut.getD 5 0 ∧ lut.getD 5 0 > lut.getD 6 0 ∧ lut.getD 6 0 > lut.getD 7 0 ∧
      lut.getD 7 0 > a1.val) ∧
    DecodeDXT5Block_lut 200 50 = [200, 50, 178, 157, 135, 114, 92, 71] := by
  intro lut
  have h0 := a0.isLt
  have h1 := a1.isLt
  have hl : lut = [a0.val, a1.val,
          ((7 - 1) * a0.val + 1 * a1.val) / 7, ((7 - 2) * a0.val + 2 * a1.val) / 7,
          ((7 - 3) * a0.val + 3 * a1.val) / 7, ((7 - 4) * a0.val + 4 * a1.val) / 7,
          ((7 - 5) * a0.val + 5 * a1.val) / 7, ((7 - 6) * a0.val + 6 * a1.val) / 7] := by
    simp only [lut]
    rw [DecodeDXT5Block_lut_eq, if_pos h]
  rw [hl]
  refine ⟨⟨rfl, rfl⟩, ?_, ?_, by decide⟩
  · simp only [List.getD_cons_zero, List.getD_cons_succ]
    omega
  · simp only [List.getD_cons_zero, List.getD_cons_succ]
    intro h7
    omega

/-- C39 at the endpoints 200 and 50: the strict chain. -/
theorem DXT5_lut_decreasing_witness :
    (200 : Byte).val > (50 : Byte).val ∧ (200 : Byte).val - (50 : Byte).val ≥ 7 ∧
    ((200 : Byte).val > (DecodeDXT5Block_lut (200 : Byte).val (50 : Byte).val).getD 2 0 ∧
      (DecodeDXT5Block_lut (200 : Byte).val (50 : Byte).val).getD 2 0 >
        (DecodeDXT5Block_lut (200 : Byte).val (50 : Byte).val).getD 3 0 ∧
      (DecodeDXT5Block_lut (200 : Byte).val (50 : Byte).val).getD 3 0 >
        (DecodeDXT5Block_lut (200 : Byte).val (50 : Byte).val).getD 4 0 ∧
      (DecodeDXT5Block_lut (200 : Byte).val (50 : Byte).val).getD 4 0 >
        (DecodeDXT5Block_lut (200 : Byte).val (50 : Byte).val).getD 5 0 ∧
      (DecodeDXT5Block_lut (200 : Byte).val (50 : Byte).val).getD 5 0 >
        (DecodeDXT5Block_lut (200 : Byte).val (50 : Byte).val).getD 6 0 ∧
      (DecodeDXT5Block_lut (200 : Byte).val (50 : Byte).val).getD 6 0 >
        (DecodeDXT5Block_lut (200 : Byte).val (50 : Byte).val).getD 7 0 ∧
      (DecodeDXT5Block_lut (200 : Byte).val (50 : Byte).val).getD 7 0 > (50 : Byte).val) :=
  ⟨by decide, by decide, (DXT5_lut_decreasing 200 50 (by decide)).2.2.1 (by decide)⟩

/-! ## C5, C6, C40: one block on a surface whose width is not a multiple of 4 -/

/-- C40 (the code at a failing input). On a surface 5 pixels wide and 4 high
(pitch 20, 80 bytes) filled with 9, `BCTImage::DecodeATI1Block` for block
`(1, 0)` with the block `200, 50, 0, 0, 0, 0, 0, 0` leaves `9, 9, 9, 200` in
pixel `(0, 1)` at offsets 20..23, a pixel of block `(0, 0)`: of its 16 stores
only those at offsets 19, 39, 59 and 79 are in pixels of block `(1, 0)` that
the surface has, and those at 83, 87 and 91 are past the surface. -/
theorem DecodeATI1Block_width5 :
    (List.range' 20 4).map (applyStores (fun _ => 9)
      (BCTImage.DecodeATI1Block 20 (BytePtr.ofList [200, 50, 0, 0, 0, 0, 0, 0]) 1 0)) =
      [9, 9, 9, 200] ∧
    (BCTImage.DecodeATI1Block 20 (BytePtr.ofList [200, 50, 0, 0, 0, 0, 0, 0]) 1 0).map Prod.fst =
      [19, 23, 27, 31, 39, 43, 47, 51, 59, 63, 67, 71, 79, 83, 87, 91] := by
  refine ⟨by decide, by decide⟩

end BlueCastle
